import Mathlib

/-!
Verification of the `gradschool` collection of chemistry command-line
scripts.  Each Python script is shallowly embedded: a text file is a
`List String` of its lines, numeric values are exact rationals `ℚ`
(idealising IEEE doubles), fallible code returns `Except String`.
String helpers (splitting on whitespace, substring search, number
parsing and fixed-point formatting) are re-implemented over `List Char`
so that every definition evaluates by kernel reduction.
-/

set_option autoImplicit false

deriving instance DecidableEq for Except

namespace GradSchool

/-! ### Generic string helpers (Python `str` operations) -/

/-- Whitespace test used by Python's `str.split()` / `str.strip()`. -/
def isWs (c : Char) : Bool :=
  c = ' ' ∨ c = '\t' ∨ c = '\n' ∨ c = '\r'

/-- Accumulating worker for whitespace splitting. -/
def splitWsAux : List Char → List Char → List (List Char)
  | [], acc => if acc = [] then [] else [acc.reverse]
  | c :: cs, acc =>
    if isWs c then
      if acc = [] then splitWsAux cs [] else acc.reverse :: splitWsAux cs []
    else splitWsAux cs (c :: acc)

/-- Python `s.split()`: split on runs of whitespace, no empty fields. -/
def splitWs (s : String) : List String :=
  (splitWsAux s.data []).map fun l => ⟨l⟩

/-- Python `s.strip()`. -/
def strip (s : String) : String :=
  ⟨((s.data.dropWhile isWs).reverse.dropWhile isWs).reverse⟩

/-- `pat` occurs at the start of `l`. -/
def isPrefixL : List Char → List Char → Bool
  | [], _ => true
  | _ :: _, [] => false
  | a :: as, b :: bs => a = b && isPrefixL as bs

/-- `pat` occurs somewhere inside `l` (Python `pat in s`). -/
def isInfixL (pat : List Char) : List Char → Bool
  | [] => isPrefixL pat []
  | c :: rest => isPrefixL pat (c :: rest) || isInfixL pat rest

/-- Python `pat in s`. -/
def containsStr (s pat : String) : Bool := isInfixL pat.data s.data

/-- Python `s.endswith(suf)`. -/
def strEndsWith (s suf : String) : Bool :=
  isPrefixL suf.data.reverse s.data.reverse

/-- Python `s[:-n]`: drop the last `n` characters. -/
def strDropRight (s : String) (n : ℕ) : String :=
  ⟨s.data.take (s.data.length - n)⟩

/-- Python `s.lower()` restricted to ASCII letters. -/
def lowerStr (s : String) : String :=
  ⟨s.data.map fun c => if 'A' ≤ c ∧ c ≤ 'Z' then Char.ofNat (c.toNat + 32) else c⟩

/-- Replace-all worker: leftmost, non-overlapping (Python `s.replace`);
the fuel argument (the input length) only forces structural recursion
and is never exhausted, since every step consumes at least one
character. -/
def replaceAllLAux (pat rep : List Char) : ℕ → List Char → List Char
  | _, [] => []
  | 0, l => l
  | fuel + 1, c :: rest =>
    if pat ≠ [] ∧ isPrefixL pat (c :: rest) then
      rep ++ replaceAllLAux pat rep fuel ((c :: rest).drop pat.length)
    else
      c :: replaceAllLAux pat rep fuel rest

/-- Replace-all, leftmost, non-overlapping. -/
def replaceAllL (pat rep : List Char) (l : List Char) : List Char :=
  replaceAllLAux pat rep l.length l

/-- Python `s.replace(pat, rep)`. -/
def strReplace (s pat rep : String) : String :=
  ⟨replaceAllL pat.data rep.data s.data⟩

/-! ### Number parsing (Python `float()` / `int()`) and formatting -/

/-- Digit test. -/
def isDigit (c : Char) : Bool := '0' ≤ c ∧ c ≤ '9'

/-- All characters are digits. -/
def allDigits (l : List Char) : Bool := l.all isDigit

/-- Value of a single decimal digit character. -/
def digVal (c : Char) : ℕ :=
  if c = '1' then 1 else if c = '2' then 2 else if c = '3' then 3
  else if c = '4' then 4 else if c = '5' then 5 else if c = '6' then 6
  else if c = '7' then 7 else if c = '8' then 8 else if c = '9' then 9
  else 0

/-- Numeric value of a digit string (most significant first). -/
def digitsVal (l : List Char) : ℕ :=
  l.foldl (fun acc c => 10 * acc + digVal c) 0

/-- Split a char list at the first occurrence of `c`. -/
def splitFirst (c : Char) : List Char → Option (List Char × List Char)
  | [] => none
  | x :: xs =>
    if x = c then some ([], xs)
    else match splitFirst c xs with
      | some (a, b) => some (x :: a, b)
      | none => none

/-- Strip an optional leading sign; `true` means negative. -/
def takeSign : List Char → Bool × List Char
  | [] => (false, [])
  | c :: r =>
    if c = '-' then (true, r)
    else if c = '+' then (false, r)
    else (false, c :: r)

/-- Split a mantissa at the first `e`/`E`, if any. -/
def splitExp (l : List Char) : List Char × Option (List Char) :=
  match splitFirst 'e' l with
  | some (a, b) => (a, some b)
  | none =>
    match splitFirst 'E' l with
    | some (a, b) => (a, some b)
    | none => (l, none)

/-- Parse an exponent part (optional sign, at least one digit). -/
def parseExp (l : List Char) : Option ℤ :=
  let (neg, d) := takeSign l
  if d ≠ [] ∧ allDigits d then
    some (if neg then -(digitsVal d : ℤ) else (digitsVal d : ℤ))
  else none

/-- Python `float(s)` on decimal literals, exact over `ℚ`.
Accepts `[+-]digits[.digits][(e|E)[+-]digits]` with at least one
mantissa digit; returns `none` where Python raises `ValueError`. -/
def parseFloat (s : String) : Option ℚ :=
  let (neg, rest) := takeSign s.data
  let (mant, expo) := splitExp rest
  let (ip, fp) :=
    match splitFirst '.' mant with
    | some (a, b) => (a, b)
    | none => (mant, ([] : List Char))
  if (ip ≠ [] ∨ fp ≠ []) ∧ allDigits ip ∧ allDigits fp then
    match expo with
    | none =>
      let v : ℚ := (digitsVal ip : ℚ) + (digitsVal fp : ℚ) / (10 : ℚ) ^ fp.length
      some (if neg then -v else v)
    | some e =>
      match parseExp e with
      | some k =>
        let v : ℚ := ((digitsVal ip : ℚ) + (digitsVal fp : ℚ) / (10 : ℚ) ^ fp.length)
          * (10 : ℚ) ^ (k : ℤ)
        some (if neg then -v else v)
      | none => none
  else none

/-- Python `int(s)`: optional sign and at least one digit. -/
def parseInt (s : String) : Option ℤ :=
  let (neg, d) := takeSign s.data
  if d ≠ [] ∧ allDigits d then
    some (if neg then -(digitsVal d : ℤ) else (digitsVal d : ℤ))
  else none

/-- Python `int(float(s))`: truncation of a rational toward zero. -/
def pyTrunc (q : ℚ) : ℤ := q.num.tdiv (q.den : ℤ)

/-- Left-pad a digit string with zeros to width `n`. -/
def padZeros (n : ℕ) (l : List Char) : List Char :=
  List.replicate (n - l.length) '0' ++ l

/-- Python `format(x, '.{prec}f')` on a nonnegative value scaled to an
integer numerator: `'{ip}.{frac}'`. -/
def fmtScaled (prec : ℕ) (scaled : ℕ) : List Char :=
  (Nat.toDigits 10 (scaled / 10 ^ prec)) ++ '.' ::
    padZeros prec (Nat.toDigits 10 (scaled % 10 ^ prec))

/-- Python `format(q, '.{prec}f')`, rounding half away from zero
(ties do not occur in any value this development formats). -/
def fmtFixed (prec : ℕ) (q : ℚ) : String :=
  let scaled : ℕ := (⌊|q| * (10 : ℚ) ^ prec + 1 / 2⌋).toNat
  if q < 0 then ⟨'-' :: fmtScaled prec scaled⟩ else ⟨fmtScaled prec scaled⟩

/-- `itertools.islice(file, a, b)` on a list of lines. -/
def islice {α : Type} (l : List α) (a b : ℕ) : List α :=
  (l.drop a).take (b - a)

/-- Effectful map over `Except` (Python list iteration that may raise). -/
def mapME {α β : Type} (f : α → Except String β) : List α → Except String (List β)
  | [] => .ok []
  | a :: as => do
    let b ← f a
    let bs ← mapME f as
    return b :: bs

/-- Python `float` over a whitespace-split line, failing like `float()`. -/
def parseLineFloats (l : String) : Except String (List ℚ) :=
  mapME (fun t =>
    match parseFloat t with
    | some q => Except.ok q
    | none => Except.error "ValueError: could not convert string to float")
    (splitWs l)

/-- `float` over every token of every line, concatenated. -/
def parseFloatsLines (ls : List String) : Except String (List ℚ) := do
  let xss ← mapME parseLineFloats ls
  return xss.flatten

/-! ### `fchk2xyz/fchk2xyz.py` -/

namespace Fchk2xyz

/-- The dictionary built by `flag_lines` (missing key = `KeyError`). -/
structure FlagDict where
  nbasis : Option ℕ
  nuclear_charges : Option ℕ
  cartesian_coords : Option ℕ
  force_field : Option ℕ
deriving DecidableEq, Repr

/-- Worker for `flag_lines`: 1-based line numbers, `elif` chain,
`break` on `Force Field`. -/
def flagLinesAux : List String → ℕ → FlagDict → FlagDict
  | [], _, d => d
  | l :: ls, n, d =>
    if containsStr l "Number of basis functions" then
      flagLinesAux ls (n + 1) { d with nbasis := some n }
    else if containsStr l "Nuclear charges" then
      flagLinesAux ls (n + 1) { d with nuclear_charges := some n }
    else if containsStr l "Current cartesian coordinates" then
      flagLinesAux ls (n + 1) { d with cartesian_coords := some n }
    else if containsStr l "Force Field" then
      { d with force_field := some n }
    else
      flagLinesAux ls (n + 1) d

/-- `flag_lines`: find line numbers containing information of interest. -/
def flag_lines (file : List String) : FlagDict :=
  flagLinesAux file 1 ⟨none, none, none, none⟩

/-- Python `flags[key]`: `KeyError` when the key was never flagged. -/
def getFlag (o : Option ℕ) : Except String ℕ :=
  match o with
  | some n => .ok n
  | none => .error "KeyError"

/-- The `element_map` dictionary; the default is the charge itself
(`element_map.get(charge, charge)` on the string of the integer). -/
def element_map (z : ℤ) : String :=
  if z = 1 then "H"
  else if z = 6 then "C" else if z = 7 then "N"
  else if z = 8 then "O" else if z = 9 then "F"
  else if z = 15 then "P" else if z = 16 then "S" else if z = 17 then "Cl"
  else if z = 22 then "Ti" else if z = 26 then "Fe" else if z = 27 then "Co"
  else if z = 28 then "Ni" else if z = 29 then "Cu"
  else if z = 30 then "Zn" else if z = 35 then "Br"
  else if z = 44 then "Ru" else if z = 53 then "I"
  else toString z

/-- `bohr_to_angs = 0.529177249`. -/
def bohr_to_angs : ℚ := 0.529177249

/-- The nuclear-charge block: element symbols from
`islice(file, flags['nuclear_charges'], flags['cartesian_coords'] - 1)`,
each token through `str(int(float(x)))` and the element map. -/
def fchk_charges (file : List String) (d : FlagDict) :
    Except String (List String) := do
  let nc ← getFlag d.nuclear_charges
  let cc ← getFlag d.cartesian_coords
  let vals ← parseFloatsLines (islice file nc (cc - 1))
  return vals.map fun q => element_map (pyTrunc q)

/-- The raw Cartesian-coordinate block (atomic units, before scaling):
`islice(file, flags['cartesian_coords'], flags['force_field'] - 1)`. -/
def fchk_raw_coords (file : List String) (d : FlagDict) :
    Except String (List ℚ) := do
  let cc ← getFlag d.cartesian_coords
  let ff ← getFlag d.force_field
  parseFloatsLines (islice file cc (ff - 1))

/-- `get_charges_coords`: element symbols and coordinates scaled by
`bohr_to_angs`; `ValueError` when the count of coordinates is not three
per atom. -/
def get_charges_coords (file : List String) (d : FlagDict) :
    Except String (List String × List ℚ) := do
  let nuclear_charges ← fchk_charges file d
  let raw ← fchk_raw_coords file d
  let coordinates := raw.map fun q => q * bohr_to_angs
  if coordinates.length ≠ nuclear_charges.length * 3 then
    .error "Error! Number of coordinates doesn't match number of atoms."
  else
    return (nuclear_charges, coordinates)

/-- One `element x y z` row of the XYZ body. -/
structure XyzRow where
  element : String
  x : ℚ
  y : ℚ
  z : ℚ
deriving DecidableEq, Repr

/-- The written XYZ file: first line `natoms`, comment line, body rows. -/
structure XyzFile where
  natoms : ℕ
  comment : String
  rows : List XyzRow
deriving DecidableEq, Repr

/-- Group a flat coordinate list into `(x, y, z)` triples
(`coordinates[3 * i : 3 * i + 3]` per atom). -/
def chunk3 : List ℚ → List (ℚ × ℚ × ℚ)
  | x :: y :: z :: rest => (x, y, z) :: chunk3 rest
  | _ => []

/-- Body rows: each element symbol with its coordinate triple
(`for i, element in enumerate(...): x, y, z = coordinates[3*i:3*i+3]`). -/
def mkRows (ch : List String) (co : List ℚ) : List XyzRow :=
  (ch.zip (chunk3 co)).map fun p => ⟨p.1, p.2.1, p.2.2.1, p.2.2.2⟩

/-- `write_xyz`: header is the atom count and the FCHK file name, body
pairs each element symbol with its coordinate triple. -/
def write_xyz (file : List String) (d : FlagDict) (fchkfile : String) :
    Except String XyzFile := do
  let (nuclear_charges, coordinates) ← get_charges_coords file d
  return ⟨nuclear_charges.length, fchkfile, mkRows nuclear_charges coordinates⟩

theorem mkRows_length (ch : List String) :
    ∀ co : List ℚ, co.length = 3 * ch.length →
      (mkRows ch co).length = ch.length := by
  induction ch with
  | nil => intro co h; simp [mkRows]
  | cons a ch ih =>
    intro co h
    rcases co with _ | ⟨x, _ | ⟨y, _ | ⟨z, co'⟩⟩⟩ <;> simp at h <;> try omega
    have h' : co'.length = 3 * ch.length := by omega
    simpa [mkRows, chunk3] using ih co' h'

theorem mkRows_getD (ch : List String) :
    ∀ co : List ℚ, co.length = 3 * ch.length →
      ∀ i, i < ch.length →
        (mkRows ch co).getD i ⟨"", 0, 0, 0⟩ =
          ⟨ch.getD i "", co.getD (3 * i) 0,
            co.getD (3 * i + 1) 0, co.getD (3 * i + 2) 0⟩ := by
  induction ch with
  | nil => intro co h i hi; simp at hi
  | cons a ch ih =>
    intro co h i hi
    rcases co with _ | ⟨x, _ | ⟨y, _ | ⟨z, co'⟩⟩⟩ <;> simp at h <;> try omega
    have h' : co'.length = 3 * ch.length := by omega
    match i with
    | 0 => simp [mkRows, chunk3]
    | j + 1 =>
      have e0 : 3 * (j + 1) = 3 * j + 1 + 1 + 1 := by ring
      have e1 : 3 * (j + 1) + 1 = 3 * j + 2 + 1 + 1 := by ring
      have e2 : 3 * (j + 1) + 2 = 3 * j + 2 + 1 + 1 + 1 := by ring
      have hj := ih co' h' j (by simpa using Nat.lt_of_succ_lt_succ hi)
      simp only [mkRows, chunk3, List.zip_cons_cons, List.map_cons,
        List.getD_cons_succ, e0, e1, e2]
      simpa [mkRows] using hj

/-- Getting an in-bounds element of the scaled coordinate list. -/
theorem getD_map_scale (raw : List ℚ) (k : ℚ) (j : ℕ) (hj : j < raw.length) :
    (raw.map fun q => q * k).getD j 0 = raw.getD j 0 * k := by
  induction raw generalizing j with
  | nil => simp at hj
  | cons x xs ih =>
    match j with
    | 0 => simp
    | m + 1 => simpa using ih m (by simpa using Nat.lt_of_succ_lt_succ hj)

theorem ok_bind {α β : Type} (a : α) (f : α → Except String β) :
    (Except.ok a >>= f) = f a := rfl

/-- **C1.** For every well-formed FCHK input (one whose nuclear-charge
and coordinate blocks parse), `fchk2xyz` writes an XYZ file whose first
line equals the number of atoms (parsed nuclear charges) and whose three
coordinates per atom equal the FCHK Cartesian coordinates multiplied by
`0.529177249` (atomic units to angstroms); it raises an error when the
number of parsed coordinates is not three times the number of atoms. -/
theorem fchk2xyz_correct (file : List String) (d : FlagDict) (fchkfile : String)
    (charges : List String) (raw : List ℚ)
    (hch : fchk_charges file d = .ok charges)
    (hra : fchk_raw_coords file d = .ok raw) :
    (raw.length = 3 * charges.length →
      ∃ rows, write_xyz file d fchkfile = .ok ⟨charges.length, fchkfile, rows⟩ ∧
        rows.length = charges.length ∧
        ∀ i, i < charges.length →
          (rows.getD i ⟨"", 0, 0, 0⟩).element = charges.getD i "" ∧
          (rows.getD i ⟨"", 0, 0, 0⟩).x = raw.getD (3 * i) 0 * bohr_to_angs ∧
          (rows.getD i ⟨"", 0, 0, 0⟩).y = raw.getD (3 * i + 1) 0 * bohr_to_angs ∧
          (rows.getD i ⟨"", 0, 0, 0⟩).z = raw.getD (3 * i + 2) 0 * bohr_to_angs) ∧
    (raw.length ≠ 3 * charges.length →
      write_xyz file d fchkfile =
        .error "Error! Number of coordinates doesn't match number of atoms.") := by
  have hco : (raw.map fun q => q * bohr_to_angs).length = raw.length :=
    List.length_map _ _
  constructor
  · intro h3
    have hg : get_charges_coords file d =
        .ok (charges, raw.map fun q => q * bohr_to_angs) := by
      unfold get_charges_coords
      rw [hch, ok_bind, hra, ok_bind]
      simp only [hco]
      rw [if_neg (by omega)]
      rfl
    refine ⟨mkRows charges (raw.map fun q => q * bohr_to_angs), ?_, ?_, ?_⟩
    · unfold write_xyz
      rw [hg, ok_bind]
      rfl
    · exact mkRows_length charges _ (by omega)
    · intro i hi
      have hrow := mkRows_getD charges (raw.map fun q => q * bohr_to_angs)
        (by omega) i hi
      rw [hrow]
      refine ⟨rfl, ?_, ?_, ?_⟩ <;>
        exact getD_map_scale raw bohr_to_angs _ (by omega)
  · intro h3
    have hg : get_charges_coords file d =
        .error "Error! Number of coordinates doesn't match number of atoms." := by
      unfold get_charges_coords
      rw [hch, ok_bind, hra, ok_bind]
      simp only [hco]
      rw [if_pos (by omega)]
    unfold write_xyz
    rw [hg]
    rfl

/-- Concrete FCHK input used by the C1 witness. -/
def sampleFchk : List String :=
  ["Nuclear charges",
   "1.0 6.0",
   "Current cartesian coordinates",
   "0.0 0.0 1.0 2.0",
   "-1.0 0.5",
   "Force Field"]

/-- Witness for **C1**: on `sampleFchk` the hypotheses hold and the XYZ
output has 2 atoms with the converted coordinates. -/
theorem fchk2xyz_correct_witness :
    fchk_charges sampleFchk (flag_lines sampleFchk) = .ok ["H", "C"] ∧
    fchk_raw_coords sampleFchk (flag_lines sampleFchk) =
      .ok [0, 0, 1, 2, -1, 1 / 2] ∧
    ∃ rows, write_xyz sampleFchk (flag_lines sampleFchk) "sample.fchk" =
        .ok ⟨2, "sample.fchk", rows⟩ ∧ rows.length = 2 := by
  have hd : flag_lines sampleFchk = ⟨none, some 1, some 3, some 6⟩ := by decide
  have hs1 : islice sampleFchk 1 2 = ["1.0 6.0"] := by decide
  have hs2 : islice sampleFchk 3 5 = ["0.0 0.0 1.0 2.0", "-1.0 0.5"] := by decide
  have p00 : parseFloat "0.0" = some 0 := by
    have h : "0.0".data = ['0', '.', '0'] := rfl
    norm_num +decide [parseFloat, h, takeSign, splitExp, splitFirst, allDigits,
      isDigit, digitsVal, digVal]
  have p10 : parseFloat "1.0" = some 1 := by
    have h : "1.0".data = ['1', '.', '0'] := rfl
    norm_num +decide [parseFloat, h, takeSign, splitExp, splitFirst, allDigits,
      isDigit, digitsVal, digVal]
  have p20 : parseFloat "2.0" = some 2 := by
    have h : "2.0".data = ['2', '.', '0'] := rfl
    norm_num +decide [parseFloat, h, takeSign, splitExp, splitFirst, allDigits,
      isDigit, digitsVal, digVal]
  have p60 : parseFloat "6.0" = some 6 := by
    have h : "6.0".data = ['6', '.', '0'] := rfl
    norm_num +decide [parseFloat, h, takeSign, splitExp, splitFirst, allDigits,
      isDigit, digitsVal, digVal]
  have pm10 : parseFloat "-1.0" = some (-1) := by
    have h : "-1.0".data = ['-', '1', '.', '0'] := rfl
    norm_num +decide [parseFloat, h, takeSign, splitExp, splitFirst, allDigits,
      isDigit, digitsVal, digVal]
  have p05 : parseFloat "0.5" = some (1 / 2) := by
    have h : "0.5".data = ['0', '.', '5'] := rfl
    norm_num +decide [parseFloat, h, takeSign, splitExp, splitFirst, allDigits,
      isDigit, digitsVal, digVal]
  have w1 : splitWs "1.0 6.0" = ["1.0", "6.0"] := by decide
  have w2 : splitWs "0.0 0.0 1.0 2.0" = ["0.0", "0.0", "1.0", "2.0"] := by decide
  have w3 : splitWs "-1.0 0.5" = ["-1.0", "0.5"] := by decide
  have e1 : parseLineFloats "1.0 6.0" = .ok [1, 6] := by
    simp [parseLineFloats, w1, p10, p60, mapME, ok_bind]
  have e2 : parseLineFloats "0.0 0.0 1.0 2.0" = .ok [0, 0, 1, 2] := by
    simp [parseLineFloats, w2, p00, p10, p20, mapME, ok_bind]
  have e3 : parseLineFloats "-1.0 0.5" = .ok [-1, 1 / 2] := by
    simp [parseLineFloats, w3, pm10, p05, mapME, ok_bind]
  have hch : fchk_charges sampleFchk (flag_lines sampleFchk) = .ok ["H", "C"] := by
    rw [hd]
    norm_num [fchk_charges, getFlag, ok_bind, hs1, parseFloatsLines, e1,
      mapME, pyTrunc, element_map]
  have hra : fchk_raw_coords sampleFchk (flag_lines sampleFchk) =
      .ok [0, 0, 1, 2, -1, 1 / 2] := by
    rw [hd]
    norm_num [fchk_raw_coords, getFlag, ok_bind, hs2, parseFloatsLines, e2, e3,
      mapME]
  have hmain := fchk2xyz_correct sampleFchk (flag_lines sampleFchk) "sample.fchk"
    ["H", "C"] [0, 0, 1, 2, -1, 1 / 2] hch hra
  obtain ⟨rows, hw, hlen, -⟩ := hmain.1 (by simp)
  exact ⟨hch, hra, rows, hw, hlen⟩

end Fchk2xyz

/-! ### Further shared helpers -/

theorem bindOk {α β : Type} (a : α) (f : α → Except String β) :
    (Except.ok a >>= f) = f a := rfl

theorem pureOk {α : Type} (a : α) :
    (pure a : Except String α) = Except.ok a := rfl

theorem bindErr {α β : Type} (e : String) (f : α → Except String β) :
    (Except.error e >>= f) = Except.error e := rfl

/-- Effectful fold over `Except` (Python loop that may raise). -/
def foldME {α β : Type} (f : β → α → Except String β) : β → List α → Except String β
  | b, [] => .ok b
  | b, a :: as => do
    let b' ← f b a
    foldME f b' as

/-- Python `lst[i]` (`IndexError` when out of range). -/
def pyIdx {α : Type} (l : List α) (i : ℕ) : Except String α :=
  match l.get? i with
  | some a => .ok a
  | none => .error "IndexError"

/-- Python `lst[-1]` on a nonempty list (`IndexError` when empty). -/
def pyLast {α : Type} (l : List α) : Except String α :=
  match l.getLast? with
  | some a => .ok a
  | none => .error "IndexError"

/-- Python `float(tokens[i])`. -/
def tokFloat (ts : List String) (i : ℕ) : Except String ℚ := do
  let t ← pyIdx ts i
  match parseFloat t with
  | some q => .ok q
  | none => .error "ValueError: could not convert string to float"

/-- Python `float(s)` raising `ValueError`. -/
def pyFloat (s : String) : Except String ℚ :=
  match parseFloat s with
  | some q => .ok q
  | none => .error "ValueError: could not convert string to float"

/-- Python `int(s)` raising `ValueError`. -/
def pyInt (s : String) : Except String ℤ :=
  match parseInt s with
  | some z => .ok z
  | none => .error "ValueError: invalid literal for int"

/-- Python `' '.join(tokens)`. -/
def joinSpace : List String → String
  | [] => ""
  | [t] => t
  | t :: ts => t ++ " " ++ joinSpace ts

/-! ### `removeCosmicRays/rmCosmicRays.py` (session log and user inputs) -/

namespace RmCosmicRays

/-- Contents of the JSON session log `last_values.json`; `none` models
JSON `null` (a saved Python `None`). -/
structure SessionLog where
  baseline_pts : Option (List ℤ)
  toluene_pks : Option (List ℚ)
deriving DecidableEq, Repr

/-- `load_log`: the parsed log file when `last_values.json` exists in the
working directory (`fs = some contents`), else the empty-list defaults. -/
def load_log (fs : Option SessionLog) : SessionLog :=
  match fs with
  | some v => v
  | none => ⟨some [], some []⟩

/-- `save_log`: the contents written to `last_values.json`. -/
def save_log (baseline_pts : Option (List ℤ)) (toluene_pks : Option (List ℚ)) :
    SessionLog :=
  ⟨baseline_pts, toluene_pks⟩

/-- Python truthiness of a `list`-or-`None` value: `None` and `[]` are
falsy. -/
def truthy {α : Type} (v : Option (List α)) : Bool :=
  match v with
  | none => false
  | some l => !l.isEmpty

/-- The interactive `input()` replies available to `get_user_inputs`. -/
structure UserIO where
  answer_baseline : String
  answer_toluene : String
  typed_baseline : String
  typed_toluene : String
deriving DecidableEq, Repr

/-- Which `input()` prompts a run of `get_user_inputs` issues. -/
inductive Prompt
  | useLastBaseline
  | enterBaseline
  | useLastToluene
  | enterToluene
deriving DecidableEq, Repr

/-- Result of `get_user_inputs`: the returned pair, the log contents
written by `save_log`, and the prompts issued. -/
structure GuiResult where
  baseline_pts : Option (List ℤ)
  toluene_pks : Option (List ℚ)
  savedLog : SessionLog
  prompts : List Prompt
deriving DecidableEq, Repr

/-- Python `input(...).strip().lower() == 'y'`. -/
def saidYes (ans : String) : Bool := lowerStr (strip ans) = "y"

/-- `input.replace(",", " ").split()` then `map(int, ...)`. -/
def parseTypedInts (s : String) : Except String (List ℤ) :=
  mapME pyInt (splitWs (strReplace s "," " "))

/-- `input.replace(",", " ").split()` then `map(float, ...)`. -/
def parseTypedFloats (s : String) : Except String (List ℚ) :=
  mapME pyFloat (splitWs (strReplace s "," " "))

/-- The baseline-points branch of `get_user_inputs`. -/
def guiBaseline (lv : SessionLog) (io : UserIO) :
    Except String (Option (List ℤ) × List Prompt) :=
  if truthy lv.baseline_pts then
    let use_last := saidYes io.answer_baseline
    .ok (if use_last then lv.baseline_pts else none, [Prompt.useLastBaseline])
  else do
    let v ← parseTypedInts io.typed_baseline
    return (some v, [Prompt.enterBaseline])

/-- The toluene-peaks branch of `get_user_inputs`. -/
def guiToluene (lv : SessionLog) (io : UserIO) :
    Except String (Option (List ℚ) × List Prompt) :=
  if truthy lv.toluene_pks then
    let use_last := saidYes io.answer_toluene
    .ok (if use_last then lv.toluene_pks else none, [Prompt.useLastToluene])
  else do
    let v ← parseTypedFloats io.typed_toluene
    return (some v, [Prompt.enterToluene])

/-- `get_user_inputs`: load the last session, handle the two value
groups, save the (possibly `None`) results with `save_log`, and return
them together with the prompts issued. -/
def get_user_inputs (fs : Option SessionLog) (io : UserIO) :
    Except String GuiResult := do
  let last_values := load_log fs
  let (baseline_pts, pb) ← guiBaseline last_values io
  let (toluene_pks, pt) ← guiToluene last_values io
  return ⟨baseline_pts, toluene_pks, save_log baseline_pts toluene_pks, pb ++ pt⟩

theorem guiBaseline_cases (lv : SessionLog) (io : UserIO)
    (x : Option (List ℤ) × List Prompt) (h : guiBaseline lv io = .ok x) :
    (truthy lv.baseline_pts = true →
      x.2 = [Prompt.useLastBaseline] ∧
      (saidYes io.answer_baseline = false → x.1 = none)) ∧
    (x.2 = [Prompt.useLastBaseline] ∨ x.2 = [Prompt.enterBaseline]) := by
  by_cases ht : truthy lv.baseline_pts = true
  · rw [guiBaseline, if_pos ht] at h
    obtain rfl : ((if saidYes io.answer_baseline then lv.baseline_pts else none),
        [Prompt.useLastBaseline]) = x := by
      simpa using h
    refine ⟨fun _ => ⟨rfl, fun hn => ?_⟩, Or.inl rfl⟩
    simp [hn]
  · rw [guiBaseline, if_neg ht] at h
    cases hp : parseTypedInts io.typed_baseline with
    | error e => rw [hp] at h; exact absurd h (by simp [bindErr])
    | ok v =>
      rw [hp] at h
      obtain rfl : (some v, [Prompt.enterBaseline]) = x := by
        simpa [bindOk] using h
      exact ⟨fun htt => absurd htt ht, Or.inr rfl⟩

theorem guiToluene_cases (lv : SessionLog) (io : UserIO)
    (x : Option (List ℚ) × List Prompt) (h : guiToluene lv io = .ok x) :
    (truthy lv.toluene_pks = true →
      x.2 = [Prompt.useLastToluene] ∧
      (saidYes io.answer_toluene = false → x.1 = none)) ∧
    (x.2 = [Prompt.useLastToluene] ∨ x.2 = [Prompt.enterToluene]) := by
  by_cases ht : truthy lv.toluene_pks = true
  · rw [guiToluene, if_pos ht] at h
    obtain rfl : ((if saidYes io.answer_toluene then lv.toluene_pks else none),
        [Prompt.useLastToluene]) = x := by
      simpa using h
    refine ⟨fun _ => ⟨rfl, fun hn => ?_⟩, Or.inl rfl⟩
    simp [hn]
  · rw [guiToluene, if_neg ht] at h
    cases hp : parseTypedFloats io.typed_toluene with
    | error e => rw [hp] at h; exact absurd h (by simp [bindErr])
    | ok v =>
      rw [hp] at h
      obtain rfl : (some v, [Prompt.enterToluene]) = x := by
        simpa [bindOk] using h
      exact ⟨fun htt => absurd htt ht, Or.inr rfl⟩

/-- Decomposition of a successful `get_user_inputs` run into its two
branches. -/
theorem gui_decomp (fs : Option SessionLog) (io : UserIO) (r : GuiResult)
    (hr : get_user_inputs fs io = .ok r) :
    ∃ bp pb tp pt,
      guiBaseline (load_log fs) io = .ok (bp, pb) ∧
      guiToluene (load_log fs) io = .ok (tp, pt) ∧
      r = ⟨bp, tp, save_log bp tp, pb ++ pt⟩ := by
  rw [get_user_inputs] at hr
  cases hb : guiBaseline (load_log fs) io with
  | error e => simp [hb, bindErr] at hr
  | ok xb =>
    cases xb with
    | mk bp pb =>
      cases ht : guiToluene (load_log fs) io with
      | error e => simp [hb, ht, bindOk, bindErr] at hr
      | ok xt =>
        cases xt with
        | mk tp pt =>
          refine ⟨bp, pb, tp, pt, rfl, rfl, ?_⟩
          simp [hb, ht, bindOk, pureOk] at hr
          exact hr.symm

/-- **C9.** In `rmCosmicRays`, if stored last-session baseline points
(or toluene peaks) exist and the user answers anything other than `y`
when asked to reuse them, `get_user_inputs` sets that value to `None`
and saves `None` to the session log instead of prompting for
replacement values; the function never issues an enter-new-values
prompt when a previous session exists. -/
theorem gui_never_reprompts (fs : Option SessionLog) (io : UserIO)
    (r : GuiResult) (hr : get_user_inputs fs io = .ok r) :
    (truthy (load_log fs).baseline_pts = true →
      Prompt.enterBaseline ∉ r.prompts ∧
      (saidYes io.answer_baseline = false →
        r.baseline_pts = none ∧ r.savedLog.baseline_pts = none)) ∧
    (truthy (load_log fs).toluene_pks = true →
      Prompt.enterToluene ∉ r.prompts ∧
      (saidYes io.answer_toluene = false →
        r.toluene_pks = none ∧ r.savedLog.toluene_pks = none)) := by
  obtain ⟨bp, pb, tp, pt, hb, ht, rfl⟩ := gui_decomp fs io r hr
  obtain ⟨hbt, hbor⟩ := guiBaseline_cases (load_log fs) io (bp, pb) hb
  obtain ⟨htt, htor⟩ := guiToluene_cases (load_log fs) io (tp, pt) ht
  constructor
  · intro h1
    obtain ⟨hpb, hnone⟩ := hbt h1
    refine ⟨?_, fun hn => ⟨hnone hn, by simpa [save_log] using hnone hn⟩⟩
    subst hpb
    rcases htor with h | h <;> subst h <;> simp
  · intro h1
    obtain ⟨hpt, hnone⟩ := htt h1
    refine ⟨?_, fun hn => ⟨hnone hn, by simpa [save_log] using hnone hn⟩⟩
    subst hpt
    rcases hbor with h | h <;> subst h <;> simp

/-- Witness for **C9**: a stored session with baseline points `[3]` and
toluene peaks `[2]`, both reuse questions answered `n`. -/
theorem gui_never_reprompts_witness :
    get_user_inputs (some (save_log (some [3]) (some [2]))) ⟨"n", "n", "", ""⟩ =
      .ok ⟨none, none, save_log none none,
        [Prompt.useLastBaseline, Prompt.useLastToluene]⟩ ∧
    truthy (load_log (some (save_log (some [3]) (some [2])))).baseline_pts = true ∧
    saidYes "n" = false ∧
    (⟨none, none, save_log none none,
      [Prompt.useLastBaseline, Prompt.useLastToluene]⟩ : GuiResult).baseline_pts
        = none ∧
    Prompt.enterBaseline ∉
      (⟨none, none, save_log none none,
        [Prompt.useLastBaseline, Prompt.useLastToluene]⟩ : GuiResult).prompts := by
  have hr : get_user_inputs (some (save_log (some [3]) (some [2])))
      ⟨"n", "n", "", ""⟩ =
      .ok ⟨none, none, save_log none none,
        [Prompt.useLastBaseline, Prompt.useLastToluene]⟩ := by decide
  have hmain := gui_never_reprompts _ _ _ hr
  obtain ⟨hmem, hvals⟩ := hmain.1 (by decide)
  exact ⟨hr, by decide, by decide, (hvals (by decide)).1, hmem⟩

/-- **C3 counterexample.** `rmCosmicRays` does keep state that outlives
a single invocation: the baseline points and toluene peaks saved by
`save_log` in one run are read back by `load_log` in a later run of the
same script, and `get_user_inputs` then offers and returns them. -/
theorem persistent_state_counterexample :
    load_log (some (save_log (some [3, 5]) (some [1, 2]))) ≠ load_log none ∧
    load_log (some (save_log (some [3, 5]) (some [1, 2]))) =
      ⟨some [3, 5], some [1, 2]⟩ ∧
    ∃ r, get_user_inputs (some (save_log (some [3, 5]) (some [1, 2])))
        ⟨"y", "y", "", ""⟩ = .ok r ∧
      r.baseline_pts = some [3, 5] ∧ r.toluene_pks = some [1, 2] := by
  refine ⟨by decide, rfl,
    ⟨some [3, 5], some [1, 2], save_log (some [3, 5]) (some [1, 2]),
      [Prompt.useLastBaseline, Prompt.useLastToluene]⟩, by decide, rfl, rfl⟩

/-- **C3 amended.** No script other than `rmCosmicRays` keeps state
that outlives a single invocation; `rmCosmicRays` persists the baseline
points and toluene peaks in `last_values.json`: whatever `save_log`
writes in one run is exactly what `load_log` returns in the next run. -/
theorem save_log_roundtrip (bp : Option (List ℤ)) (tp : Option (List ℚ)) :
    load_log (some (save_log bp tp)) = ⟨bp, tp⟩ := rfl

end RmCosmicRays

/-! ### `bind2com.py` (top-level Python 2 script) -/

namespace Bind2ComOld

/-- Worker for `get_index`: 1-based `enumerate(fo, 1)`, the `jump` latch
keeps only the first `&` line, no `break` anywhere. -/
def getIndexAux : List String → ℕ → Bool → List ℕ
  | [], _, _ => []
  | l :: ls, n, jump =>
    if containsStr l "Geometry Crystallographic" then
      n :: getIndexAux ls (n + 1) jump
    else if containsStr l "&" then
      if jump = false then n :: getIndexAux ls (n + 1) true
      else getIndexAux ls (n + 1) jump
    else if containsStr l "Crystal Spec" then
      n :: getIndexAux ls (n + 1) jump
    else
      getIndexAux ls (n + 1) jump

/-- `get_index`: lines of interest of the bind file. -/
def get_index (file : List String) : List ℕ :=
  getIndexAux file 1 false

/-- `get_lattice`: sums (over the single line
`islice(lines, flags[-1], flags[-1]+1)`) of the first three float
tokens, each returned as a `'.9f'`-formatted string. -/
def get_lattice (ifile : List String) (flags : List ℕ) :
    Except String (String × String × String) := do
  let fl ← pyLast flags
  let step := fun (abc : ℚ × ℚ × ℚ) (line : String) => do
    let buff := splitWs (strip line)
    let x ← tokFloat buff 0
    let y ← tokFloat buff 1
    let z ← tokFloat buff 2
    return (abc.1 + x, abc.2.1 + y, abc.2.2 + z)
  let (a, b, c) ← foldME step (0, 0, 0) (islice ifile fl (fl + 1))
  return (fmtFixed 9 a, fmtFixed 9 b, fmtFixed 9 c)

/-- One line of the `get_atoms` loop: `del buff[0]`, then scale entries
1..3 (the original third to fifth columns) by the lattice values and
re-join with single spaces. -/
def atomLine (abc : String × String × String) (line : String) :
    Except String String := do
  let buff := splitWs (strip line)
  match buff with
  | [] => .error "IndexError"
  | _ :: rest => do
    let sa ← pyFloat abc.1
    let sb ← pyFloat abc.2.1
    let sc ← pyFloat abc.2.2
    let v1 ← tokFloat rest 1
    let v2 ← tokFloat rest 2
    let v3 ← tokFloat rest 3
    let buff := ((rest.set 1 (fmtFixed 9 (v1 * sa))).set 2
      (fmtFixed 9 (v2 * sb))).set 3 (fmtFixed 9 (v3 * sc))
    return joinSpace buff

/-- `get_atoms`: the scaled atom lines from
`islice(lines, flags[0]+1, flags[1]-1)`. -/
def get_atoms (ifile : List String) (flags : List ℕ)
    (abc : String × String × String) : Except String (List String) := do
  let f0 ← pyIdx flags 0
  let f1 ← pyIdx flags 1
  mapME (atomLine abc) (islice ifile (f0 + 1) (f1 - 1))

/-- `make_comfile`: the written COM file as its list of lines (`ifile`
here is the `.com` output name, as in the script). -/
def make_comfile (ifile : String) (atoms : List String)
    (lattice : String × String × String) : List String :=
  ["# hf/sto-3g", "", strDropRight ifile 4, "", "0 1"] ++ atoms ++
    ["Tv " ++ lattice.1 ++ " 0.000000000 0.000000000",
     "Tv 0.000000000 " ++ lattice.2.1 ++ " 0.000000000",
     "Tv 0.000000000 0.000000000 " ++ lattice.2.2]

/-- The whole old script on a bind file's lines. -/
def bind2com (bindfile : String) (file : List String) :
    Except String (List String) := do
  let lattice ← get_lattice file (get_index file)
  let atoms ← get_atoms file (get_index file) lattice
  return make_comfile (strDropRight bindfile 5 ++ ".com") atoms lattice

end Bind2ComOld

/-! ### `bind2com/bind2com.py` (argparse rewrite) -/

namespace Bind2ComNew

/-- Worker for `flag_lines`: `enumerate(file, 2)` (so `n` is the 1-based
line number **plus one**), `num - 1` recorded for the first `&` line,
`break` after `Crystal Spec`. -/
def flagLinesAux : List String → ℕ → Bool → List ℕ
  | [], _, _ => []
  | l :: ls, n, jump =>
    if containsStr l "Geometry Crystallographic" then
      n :: flagLinesAux ls (n + 1) jump
    else if containsStr l "&" then
      if jump = false then (n - 1) :: flagLinesAux ls (n + 1) true
      else flagLinesAux ls (n + 1) jump
    else if containsStr l "Crystal Spec" then
      [n]
    else
      flagLinesAux ls (n + 1) jump

/-- `flag_lines`: find line numbers containing information of interest. -/
def flag_lines (file : List String) : List ℕ :=
  flagLinesAux file 2 false

/-- `get_lattice`: the first three float tokens of the single line
`islice(lines, flags[-1], flags[-1]+1)`, `'.9f'`-formatted; the
fallback tuple `("0.0","0.0","0.0")` when that line is absent or falsy
(the model's lines carry no trailing newline, so only a wholly empty
line is falsy). -/
def get_lattice (bindfile : List String) (flags : List ℕ) :
    Except String (List String) := do
  let fl ← pyLast flags
  match (islice bindfile fl (fl + 1)).head? with
  | none => return ["0.0", "0.0", "0.0"]
  | some line =>
    if line = "" then return ["0.0", "0.0", "0.0"]
    else do
      let vals ← mapME pyFloat ((splitWs (strip line)).take 3)
      return vals.map (fmtFixed 9)

/-- One line of the `get_coords` loop: scale tokens 2..4 by the lattice
factors, then keep tokens 0 and 1 followed by the three scaled values. -/
def coordLine (scaling : List ℚ) (line : String) : Except String String := do
  let ts := splitWs (strip line)
  let xyz ← mapME (fun i => do
      let v ← tokFloat ts i
      let s ← pyIdx scaling (i - 2)
      return fmtFixed 9 (v * s))
    [2, 3, 4]
  let t0 ← pyIdx ts 0
  let t1 ← pyIdx ts 1
  return joinSpace (t0 :: t1 :: xyz)

/-- `get_coords`: the scaled atom lines from
`islice(lines, flags[0]+1, flags[1]-1)`. -/
def get_coords (bindfile : List String) (flags : List ℕ)
    (lattice : List String) : Except String (List String) := do
  let scaling ← mapME pyFloat lattice
  let f0 ← pyIdx flags 0
  let f1 ← pyIdx flags 1
  mapME (coordLine scaling) (islice bindfile (f0 + 1) (f1 - 1))

/-- `write_comfile`: the written COM file as its list of lines
(`"\n".join([])` followed by `"\n"` leaves one empty line). -/
def write_comfile (bindfile : String) (coords : List String)
    (lattice : List String) : Except String (List String) := do
  let l0 ← pyIdx lattice 0
  let l1 ← pyIdx lattice 1
  let l2 ← pyIdx lattice 2
  return ["# hf/sto-3g", "", strDropRight bindfile 5, "", "0 1"] ++
    (if coords.isEmpty then [""] else coords) ++
    ["Tv " ++ l0 ++ " 0.000000000 0.000000000",
     "Tv 0.000000000 " ++ l1 ++ " 0.000000000",
     "Tv 0.000000000 0.000000000 " ++ l2]

/-- The whole new script's `main` on a bind file's lines. -/
def bind2com (bindfile : String) (file : List String) :
    Except String (List String) := do
  let flags := flag_lines file
  let lattice ← get_lattice file flags
  let coords ← get_coords file flags lattice
  write_comfile bindfile coords lattice

end Bind2ComNew

/-- Concrete BIND file exhibiting the divergence of the two converters. -/
def sampleBind : List String :=
  ["Geometry Crystallographic",
   "A0 A1 0.5 0.5 0.5",
   "B0 B1 0.25 0.5 0.75",
   "C0 C1 0.5 0.25 0.125",
   "&",
   "Crystal Spec",
   "1.0 2.0 4.0",
   "1.0 2.0 4.0"]

theorem parseFloat_q1 : parseFloat "1.0" = some 1 := by
  have h : "1.0".data = ['1', '.', '0'] := rfl
  norm_num +decide [parseFloat, h, takeSign, splitExp, splitFirst, allDigits,
    isDigit, digitsVal, digVal]

theorem parseFloat_q2 : parseFloat "2.0" = some 2 := by
  have h : "2.0".data = ['2', '.', '0'] := rfl
  norm_num +decide [parseFloat, h, takeSign, splitExp, splitFirst, allDigits,
    isDigit, digitsVal, digVal]

theorem parseFloat_q4 : parseFloat "4.0" = some 4 := by
  have h : "4.0".data = ['4', '.', '0'] := rfl
  norm_num +decide [parseFloat, h, takeSign, splitExp, splitFirst, allDigits,
    isDigit, digitsVal, digVal]

theorem parseFloat_half : parseFloat "0.5" = some (1 / 2) := by
  have h : "0.5".data = ['0', '.', '5'] := rfl
  norm_num +decide [parseFloat, h, takeSign, splitExp, splitFirst, allDigits,
    isDigit, digitsVal, digVal]

theorem parseFloat_quarter : parseFloat "0.25" = some (1 / 4) := by
  have h : "0.25".data = ['0', '.', '2', '5'] := rfl
  norm_num +decide [parseFloat, h, takeSign, splitExp, splitFirst, allDigits,
    isDigit, digitsVal, digVal]

theorem parseFloat_3q : parseFloat "0.75" = some (3 / 4) := by
  have h : "0.75".data = ['0', '.', '7', '5'] := rfl
  norm_num +decide [parseFloat, h, takeSign, splitExp, splitFirst, allDigits,
    isDigit, digitsVal, digVal]

theorem parseFloat_eighth : parseFloat "0.125" = some (1 / 8) := by
  have h : "0.125".data = ['0', '.', '1', '2', '5'] := rfl
  norm_num +decide [parseFloat, h, takeSign, splitExp, splitFirst, allDigits,
    isDigit, digitsVal, digVal]

theorem parseFloat_f1 : parseFloat "1.000000000" = some 1 := by
  have h : "1.000000000".data =
    ['1', '.', '0', '0', '0', '0', '0', '0', '0', '0', '0'] := rfl
  norm_num +decide [parseFloat, h, takeSign, splitExp, splitFirst, allDigits,
    isDigit, digitsVal, digVal]

theorem parseFloat_f2 : parseFloat "2.000000000" = some 2 := by
  have h : "2.000000000".data =
    ['2', '.', '0', '0', '0', '0', '0', '0', '0', '0', '0'] := rfl
  norm_num +decide [parseFloat, h, takeSign, splitExp, splitFirst, allDigits,
    isDigit, digitsVal, digVal]

theorem parseFloat_f4 : parseFloat "4.000000000" = some 4 := by
  have h : "4.000000000".data =
    ['4', '.', '0', '0', '0', '0', '0', '0', '0', '0', '0'] := rfl
  norm_num +decide [parseFloat, h, takeSign, splitExp, splitFirst, allDigits,
    isDigit, digitsVal, digVal]

theorem fmtFixed_q1 : fmtFixed 9 (1 : ℚ) = "1.000000000" := by
  have h : ⌊|(1 : ℚ)| * (10 : ℚ) ^ (9 : ℕ) + 1 / 2⌋ = 1000000000 := by norm_num
  simp only [fmtFixed, h]
  rw [if_neg (by norm_num : ¬ (1 : ℚ) < 0)]
  decide

theorem fmtFixed_q2 : fmtFixed 9 (2 : ℚ) = "2.000000000" := by
  have h : ⌊|(2 : ℚ)| * (10 : ℚ) ^ (9 : ℕ) + 1 / 2⌋ = 2000000000 := by norm_num
  simp only [fmtFixed, h]
  rw [if_neg (by norm_num : ¬ (2 : ℚ) < 0)]
  decide

theorem fmtFixed_q4 : fmtFixed 9 (4 : ℚ) = "4.000000000" := by
  have h : ⌊|(4 : ℚ)| * (10 : ℚ) ^ (9 : ℕ) + 1 / 2⌋ = 4000000000 := by norm_num
  simp only [fmtFixed, h]
  rw [if_neg (by norm_num : ¬ (4 : ℚ) < 0)]
  decide

theorem fmtFixed_q3 : fmtFixed 9 (3 : ℚ) = "3.000000000" := by
  have h : ⌊|(3 : ℚ)| * (10 : ℚ) ^ (9 : ℕ) + 1 / 2⌋ = 3000000000 := by norm_num
  simp only [fmtFixed, h]
  rw [if_neg (by norm_num : ¬ (3 : ℚ) < 0)]
  decide

theorem fmtFixed_half : fmtFixed 9 (1 / 2 : ℚ) = "0.500000000" := by
  have h : ⌊|(1 / 2 : ℚ)| * (10 : ℚ) ^ (9 : ℕ) + 1 / 2⌋ = 500000000 := by
    rw [abs_of_nonneg (by norm_num : (0 : ℚ) ≤ 1 / 2)]
    norm_num
  simp only [fmtFixed, h]
  rw [if_neg (by norm_num : ¬ (1 / 2 : ℚ) < 0)]
  decide

theorem fmtFixed_quarter : fmtFixed 9 (1 / 4 : ℚ) = "0.250000000" := by
  have h : ⌊|(1 / 4 : ℚ)| * (10 : ℚ) ^ (9 : ℕ) + 1 / 2⌋ = 250000000 := by
    rw [abs_of_nonneg (by norm_num : (0 : ℚ) ≤ 1 / 4)]
    norm_num
  simp only [fmtFixed, h]
  rw [if_neg (by norm_num : ¬ (1 / 4 : ℚ) < 0)]
  decide

/-- **C2.** The two copies of the BIND-to-COM converter diverge: on
`sampleBind` they flag different line numbers, slice different line
ranges (the old copy converts two atom lines, the new one converts one),
keep different columns (the old copy drops the first column of an atom
line, the new one keeps it), and produce different COM output. -/
theorem bind2com_copies_diverge :
    Bind2ComOld.get_index sampleBind = [1, 5, 6] ∧
    Bind2ComNew.flag_lines sampleBind = [2, 5, 7] ∧
    Bind2ComOld.atomLine ("1.000000000", "2.000000000", "4.000000000")
      "C0 C1 0.5 0.25 0.125" =
      .ok "C1 0.500000000 0.500000000 0.500000000" ∧
    Bind2ComNew.coordLine [1, 2, 4] "C0 C1 0.5 0.25 0.125" =
      .ok "C0 C1 0.500000000 0.500000000 0.500000000" ∧
    Bind2ComOld.bind2com "crystal.bind" sampleBind =
      .ok ["# hf/sto-3g", "", "crystal", "", "0 1",
        "B1 0.250000000 1.000000000 3.000000000",
        "C1 0.500000000 0.500000000 0.500000000",
        "Tv 1.000000000 0.000000000 0.000000000",
        "Tv 0.000000000 2.000000000 0.000000000",
        "Tv 0.000000000 0.000000000 4.000000000"] ∧
    Bind2ComNew.bind2com "crystal.bind" sampleBind =
      .ok ["# hf/sto-3g", "", "crystal", "", "0 1",
        "C0 C1 0.500000000 0.500000000 0.500000000",
        "Tv 1.000000000 0.000000000 0.000000000",
        "Tv 0.000000000 2.000000000 0.000000000",
        "Tv 0.000000000 0.000000000 4.000000000"] ∧
    (["# hf/sto-3g", "", "crystal", "", "0 1",
        "B1 0.250000000 1.000000000 3.000000000",
        "C1 0.500000000 0.500000000 0.500000000",
        "Tv 1.000000000 0.000000000 0.000000000",
        "Tv 0.000000000 2.000000000 0.000000000",
        "Tv 0.000000000 0.000000000 4.000000000"] : List String) ≠
      ["# hf/sto-3g", "", "crystal", "", "0 1",
        "C0 C1 0.500000000 0.500000000 0.500000000",
        "Tv 1.000000000 0.000000000 0.000000000",
        "Tv 0.000000000 2.000000000 0.000000000",
        "Tv 0.000000000 0.000000000 4.000000000"] := by
  have wB : splitWs (strip "B0 B1 0.25 0.5 0.75") =
      ["B0", "B1", "0.25", "0.5", "0.75"] := by decide
  have wC : splitWs (strip "C0 C1 0.5 0.25 0.125") =
      ["C0", "C1", "0.5", "0.25", "0.125"] := by decide
  have wL : splitWs (strip "1.0 2.0 4.0") = ["1.0", "2.0", "4.0"] := by decide
  have hCold : Bind2ComOld.atomLine
      ("1.000000000", "2.000000000", "4.000000000") "C0 C1 0.5 0.25 0.125" =
      .ok "C1 0.500000000 0.500000000 0.500000000" := by
    have i1 : pyIdx ["C1", "0.5", "0.25", "0.125"] 1 = .ok "0.5" := by decide
    have i2 : pyIdx ["C1", "0.5", "0.25", "0.125"] 2 = .ok "0.25" := by decide
    have i3 : pyIdx ["C1", "0.5", "0.25", "0.125"] 3 = .ok "0.125" := by decide
    simp only [Bind2ComOld.atomLine, wC]
    norm_num [pyFloat, tokFloat, i1, i2, i3, parseFloat_f1, parseFloat_f2,
      parseFloat_f4, parseFloat_half, parseFloat_quarter, parseFloat_eighth,
      bindOk, pureOk, fmtFixed_half]
    decide
  have hBold : Bind2ComOld.atomLine
      ("1.000000000", "2.000000000", "4.000000000") "B0 B1 0.25 0.5 0.75" =
      .ok "B1 0.250000000 1.000000000 3.000000000" := by
    have i1 : pyIdx ["B1", "0.25", "0.5", "0.75"] 1 = .ok "0.25" := by decide
    have i2 : pyIdx ["B1", "0.25", "0.5", "0.75"] 2 = .ok "0.5" := by decide
    have i3 : pyIdx ["B1", "0.25", "0.5", "0.75"] 3 = .ok "0.75" := by decide
    simp only [Bind2ComOld.atomLine, wB]
    norm_num [pyFloat, tokFloat, i1, i2, i3, parseFloat_f1, parseFloat_f2,
      parseFloat_f4, parseFloat_half, parseFloat_quarter, parseFloat_3q,
      bindOk, pureOk, fmtFixed_quarter, fmtFixed_q1, fmtFixed_q3]
    decide
  have hCnew : Bind2ComNew.coordLine [1, 2, 4] "C0 C1 0.5 0.25 0.125" =
      .ok "C0 C1 0.500000000 0.500000000 0.500000000" := by
    have i2 : pyIdx ["C0", "C1", "0.5", "0.25", "0.125"] 2 = .ok "0.5" := by
      decide
    have i3 : pyIdx ["C0", "C1", "0.5", "0.25", "0.125"] 3 = .ok "0.25" := by
      decide
    have i4 : pyIdx ["C0", "C1", "0.5", "0.25", "0.125"] 4 = .ok "0.125" := by
      decide
    have i0 : pyIdx ["C0", "C1", "0.5", "0.25", "0.125"] 0 = .ok "C0" := by
      decide
    have i1 : pyIdx ["C0", "C1", "0.5", "0.25", "0.125"] 1 = .ok "C1" := by
      decide
    have s0 : pyIdx [(1 : ℚ), 2, 4] 0 = .ok 1 := by decide
    have s1 : pyIdx [(1 : ℚ), 2, 4] 1 = .ok 2 := by decide
    have s2 : pyIdx [(1 : ℚ), 2, 4] 2 = .ok 4 := by decide
    simp only [Bind2ComNew.coordLine, wC]
    norm_num [mapME, tokFloat, i0, i1, i2, i3, i4, s0, s1, s2,
      parseFloat_half, parseFloat_quarter, parseFloat_eighth,
      bindOk, pureOk, fmtFixed_half]
    decide
  have hfl_old : Bind2ComOld.get_index sampleBind = [1, 5, 6] := by decide
  have hfl_new : Bind2ComNew.flag_lines sampleBind = [2, 5, 7] := by decide
  have hlat_old : Bind2ComOld.get_lattice sampleBind [1, 5, 6] =
      .ok ("1.000000000", "2.000000000", "4.000000000") := by
    have hs : islice sampleBind 6 7 = ["1.0 2.0 4.0"] := by decide
    have hp : pyLast [(1 : ℕ), 5, 6] = .ok 6 := by decide
    have i0 : pyIdx ["1.0", "2.0", "4.0"] 0 = .ok "1.0" := by decide
    have i1 : pyIdx ["1.0", "2.0", "4.0"] 1 = .ok "2.0" := by decide
    have i2 : pyIdx ["1.0", "2.0", "4.0"] 2 = .ok "4.0" := by decide
    simp only [Bind2ComOld.get_lattice, hp, bindOk, hs]
    norm_num [foldME, tokFloat, i0, i1, i2, wL, parseFloat_q1, parseFloat_q2,
      parseFloat_q4, bindOk, pureOk, fmtFixed_q1, fmtFixed_q2, fmtFixed_q4]
  have hlat_new : Bind2ComNew.get_lattice sampleBind [2, 5, 7] =
      .ok ["1.000000000", "2.000000000", "4.000000000"] := by
    have hs : islice sampleBind 7 8 = ["1.0 2.0 4.0"] := by decide
    have hp : pyLast [(2 : ℕ), 5, 7] = .ok 7 := by decide
    have m1 : parseFloat ⟨['1', '.', '0']⟩ = some 1 := parseFloat_q1
    have m2 : parseFloat ⟨['2', '.', '0']⟩ = some 2 := parseFloat_q2
    have m4 : parseFloat ⟨['4', '.', '0']⟩ = some 4 := parseFloat_q4
    simp only [Bind2ComNew.get_lattice, hp, bindOk, hs]
    norm_num +decide [mapME, pyFloat, wL, parseFloat_q1, parseFloat_q2,
      parseFloat_q4, m1, m2, m4, bindOk, pureOk, fmtFixed_q1, fmtFixed_q2,
      fmtFixed_q4]
  have hat_old : Bind2ComOld.get_atoms sampleBind [1, 5, 6]
      ("1.000000000", "2.000000000", "4.000000000") =
      .ok ["B1 0.250000000 1.000000000 3.000000000",
        "C1 0.500000000 0.500000000 0.500000000"] := by
    have hs : islice sampleBind 2 4 =
      ["B0 B1 0.25 0.5 0.75", "C0 C1 0.5 0.25 0.125"] := by decide
    have i0 : pyIdx [(1 : ℕ), 5, 6] 0 = .ok 1 := by decide
    have i1 : pyIdx [(1 : ℕ), 5, 6] 1 = .ok 5 := by decide
    simp only [Bind2ComOld.get_atoms, i0, i1, bindOk, hs]
    norm_num [mapME, hBold, hCold, bindOk, pureOk]
  have hco_new : Bind2ComNew.get_coords sampleBind [2, 5, 7]
      ["1.000000000", "2.000000000", "4.000000000"] =
      .ok ["C0 C1 0.500000000 0.500000000 0.500000000"] := by
    have hs : islice sampleBind 3 4 = ["C0 C1 0.5 0.25 0.125"] := by decide
    have i0 : pyIdx [(2 : ℕ), 5, 7] 0 = .ok 2 := by decide
    have i1 : pyIdx [(2 : ℕ), 5, 7] 1 = .ok 5 := by decide
    simp only [Bind2ComNew.get_coords]
    norm_num [mapME, pyFloat, i0, i1, parseFloat_f1, parseFloat_f2,
      parseFloat_f4, bindOk, pureOk, hs, hCnew]
  refine ⟨hfl_old, hfl_new, hCold, hCnew, ?_, ?_, by decide⟩
  · simp only [Bind2ComOld.bind2com, hfl_old, hlat_old, hat_old, bindOk, pureOk]
    decide
  · simp only [Bind2ComNew.bind2com, Bind2ComNew.write_comfile, hfl_new,
      hlat_new, hco_new, bindOk, pureOk, pyIdx]
    decide

/-! ### `cubeGridGen/cubeGridGen.py` -/

namespace CubeGridGen

/-- `np.linspace(lo, hi, n)`: `n` evenly spaced samples with both
endpoints included (`n = 1` gives `[lo]`, `n = 0` gives `[]`). -/
def np_linspace (lo hi : ℚ) (n : ℕ) : List ℚ :=
  if n = 1 then [lo]
  else (List.range n).map fun i : ℕ => lo + (hi - lo) * (i : ℚ) / ((n : ℚ) - 1)

/-- `np.delete(arr, i)` for the index used by `generate_grid`
(out-of-range, which happens only on an empty array, raises). -/
def np_delete {α : Type} (l : List α) (i : ℕ) : Except String (List α) :=
  if i < l.length then .ok (l.eraseIdx i) else .error "IndexError"

/-- `list(product(x_grid, y_grid, z_grid))`. -/
def gridProduct (xs ys zs : List ℚ) : List (ℚ × ℚ × ℚ) :=
  xs.flatMap fun x => ys.flatMap fun y => zs.map fun z => (x, y, z)

/-- The extension and `value < 1` validation of `parse_arguments`. -/
def parse_arguments_ok (xyzfile : String) (nx ny nz xpts ypts zpts : ℤ) :
    Bool :=
  strEndsWith xyzfile ".xyz" &&
    !(nx < 1 || ny < 1 || nz < 1 || xpts < 1 || ypts < 1 || zpts < 1)

/-- `generate_grid`: step sizes (Python float division raises
`ZeroDivisionError` when a partition count is 1), the three trimmed
`linspace` grids, their product, and the cube-count consistency check. -/
def generate_grid (min_coords max_coords : ℚ × ℚ × ℚ) (nx ny nz : ℕ) :
    Except String (ℚ × ℚ × ℚ × List (ℚ × ℚ × ℚ)) :=
  if nx = 1 then .error "ZeroDivisionError"
  else if ny = 1 then .error "ZeroDivisionError"
  else if nz = 1 then .error "ZeroDivisionError"
  else do
    let dx := (max_coords.1 - min_coords.1) / ((nx : ℚ) - 1)
    let dy := (max_coords.2.1 - min_coords.2.1) / ((ny : ℚ) - 1)
    let dz := (max_coords.2.2 - min_coords.2.2) / ((nz : ℚ) - 1)
    let x_grid ← np_delete (np_linspace min_coords.1 max_coords.1 nx) (nx - 1)
    let y_grid ← np_delete (np_linspace min_coords.2.1 max_coords.2.1 ny) (ny - 1)
    let z_grid ← np_delete (np_linspace min_coords.2.2 max_coords.2.2 nz) (nz - 1)
    let grid := gridProduct x_grid y_grid z_grid
    if grid.length ≠ (nx - 1) * (ny - 1) * (nz - 1) then
      .error "Mismatch between cube count and grid coordinates."
    else return (dx, dy, dz, grid)

theorem np_linspace_length (lo hi : ℚ) (n : ℕ) :
    (np_linspace lo hi n).length = n := by
  unfold np_linspace
  split
  · simp [*]
  · rw [List.length_map, List.length_range]

theorem bind_const_length {α β : Type} (l : List α) (f : α → List β) (c : ℕ)
    (h : ∀ a ∈ l, (f a).length = c) : (l.flatMap f).length = l.length * c := by
  induction l with
  | nil => simp
  | cons a t ih =>
    simp only [List.flatMap_cons, List.length_append, List.length_cons]
    rw [h a (List.mem_cons_self a t), ih fun b hb => h b (List.mem_cons_of_mem a hb)]
    ring

theorem gridProduct_length (xs ys zs : List ℚ) :
    (gridProduct xs ys zs).length = xs.length * ys.length * zs.length := by
  unfold gridProduct
  rw [bind_const_length xs _ (ys.length * zs.length) fun x _ => ?_]
  · ring
  · rw [bind_const_length ys _ zs.length fun y _ => by simp]

theorem np_delete_ok {α : Type} (l : List α) (i : ℕ) (h : i < l.length) :
    np_delete l i = .ok (l.eraseIdx i) := by
  unfold np_delete
  rw [if_pos h]

/-- **C10.** For every bounding box with `max_coords ≥ min_coords` and
partition counts `nx, ny, nz ≥ 2`, `generate_grid` succeeds with exactly
`(nx-1)*(ny-1)*(nz-1)` cube origins, so its mismatch `ValueError` branch
is unreachable; the precondition `≥ 2` is necessary: a partition count
of 1 is accepted by argument validation (which only requires `≥ 1`) but
makes the step-size computation divide by zero. -/
theorem generate_grid_correct (min_coords max_coords : ℚ × ℚ × ℚ)
    (nx ny nz : ℕ)
    (hbox : min_coords.1 ≤ max_coords.1 ∧ min_coords.2.1 ≤ max_coords.2.1 ∧
      min_coords.2.2 ≤ max_coords.2.2)
    (hx : 2 ≤ nx) (hy : 2 ≤ ny) (hz : 2 ≤ nz) :
    (∃ dx dy dz grid,
      generate_grid min_coords max_coords nx ny nz = .ok (dx, dy, dz, grid) ∧
      grid.length = (nx - 1) * (ny - 1) * (nz - 1)) ∧
    generate_grid min_coords max_coords nx ny nz ≠
      .error "Mismatch between cube count and grid coordinates." ∧
    parse_arguments_ok "mol.xyz" 1 1 1 175 175 175 = true ∧
    generate_grid min_coords max_coords 1 ny nz = .error "ZeroDivisionError" := by
  have hxlen : (np_linspace min_coords.1 max_coords.1 nx).length = nx :=
    np_linspace_length _ _ _
  have hylen : (np_linspace min_coords.2.1 max_coords.2.1 ny).length = ny :=
    np_linspace_length _ _ _
  have hzlen : (np_linspace min_coords.2.2 max_coords.2.2 nz).length = nz :=
    np_linspace_length _ _ _
  have hdx := np_delete_ok (np_linspace min_coords.1 max_coords.1 nx) (nx - 1)
    (by omega)
  have hdy := np_delete_ok (np_linspace min_coords.2.1 max_coords.2.1 ny) (ny - 1)
    (by omega)
  have hdz := np_delete_ok (np_linspace min_coords.2.2 max_coords.2.2 nz) (nz - 1)
    (by omega)
  have hxe : ((np_linspace min_coords.1 max_coords.1 nx).eraseIdx (nx - 1)).length
      = nx - 1 := by
    rw [List.length_eraseIdx_of_lt (by omega), hxlen]
  have hye : ((np_linspace min_coords.2.1 max_coords.2.1 ny).eraseIdx (ny - 1)).length
      = ny - 1 := by
    rw [List.length_eraseIdx_of_lt (by omega), hylen]
  have hze : ((np_linspace min_coords.2.2 max_coords.2.2 nz).eraseIdx (nz - 1)).length
      = nz - 1 := by
    rw [List.length_eraseIdx_of_lt (by omega), hzlen]
  have hglen : (gridProduct
      ((np_linspace min_coords.1 max_coords.1 nx).eraseIdx (nx - 1))
      ((np_linspace min_coords.2.1 max_coords.2.1 ny).eraseIdx (ny - 1))
      ((np_linspace min_coords.2.2 max_coords.2.2 nz).eraseIdx (nz - 1))).length
      = (nx - 1) * (ny - 1) * (nz - 1) := by
    rw [gridProduct_length, hxe, hye, hze]
  have hrun : generate_grid min_coords max_coords nx ny nz =
      .ok ((max_coords.1 - min_coords.1) / ((nx : ℚ) - 1),
        (max_coords.2.1 - min_coords.2.1) / ((ny : ℚ) - 1),
        (max_coords.2.2 - min_coords.2.2) / ((nz : ℚ) - 1),
        gridProduct
          ((np_linspace min_coords.1 max_coords.1 nx).eraseIdx (nx - 1))
          ((np_linspace min_coords.2.1 max_coords.2.1 ny).eraseIdx (ny - 1))
          ((np_linspace min_coords.2.2 max_coords.2.2 nz).eraseIdx (nz - 1))) := by
    unfold generate_grid
    rw [if_neg (by omega), if_neg (by omega), if_neg (by omega),
      hdx, bindOk, hdy, bindOk, hdz, bindOk, if_neg (by rw [hglen]; omega)]
    rfl
  refine ⟨⟨_, _, _, _, hrun, hglen⟩, by rw [hrun]; simp, by decide, ?_⟩
  unfold generate_grid
  rw [if_pos rfl]

/-- Witness for **C10**: the unit box with `nx = ny = nz = 2` yields one
cube origin, and partition count 1 is accepted by validation yet divides
by zero. -/
theorem generate_grid_correct_witness :
    ((0 : ℚ), (0 : ℚ), (0 : ℚ)).1 ≤ ((1 : ℚ), (1 : ℚ), (1 : ℚ)).1 ∧
    (∃ dx dy dz grid,
      generate_grid (0, 0, 0) (1, 1, 1) 2 2 2 = .ok (dx, dy, dz, grid) ∧
      grid.length = 1) ∧
    generate_grid (0, 0, 0) (1, 1, 1) 1 2 2 = .error "ZeroDivisionError" := by
  have h := generate_grid_correct (0, 0, 0) (1, 1, 1) 2 2 2
    (by norm_num) (by norm_num) (by norm_num) (by norm_num)
  exact ⟨by norm_num, h.1, h.2.2.2⟩

end CubeGridGen

/-! ### `analyzeTDDFT/analyzeTDDFT.py`

The committed file contains unresolved merge-conflict markers; the
embedding follows the `HEAD` side, whose `read_logfile` and `main`
logic the conflicting side shares up to whitespace. -/

namespace AnalyzeTDDFT

/-- Python dict assignment `d[k] = v` on an insertion-ordered
association list. -/
def dictInsert (d : List (ℤ × ℕ)) (k : ℤ) (v : ℕ) : List (ℤ × ℕ) :=
  match d with
  | [] => [(k, v)]
  | (k', v') :: rest =>
    if k' = k then (k, v) :: rest else (k', v') :: dictInsert rest k v

/-- Python dict lookup `d[k]` as an option. -/
def dictFind (d : List (ℤ × ℕ)) (k : ℤ) : Option ℕ :=
  match d with
  | [] => none
  | (k', v') :: rest => if k' = k then some v' else dictFind rest k

/-- `get_excited_states`: parse wavelength (token 6), oscillator
strength (token 8 with `f=` stripped), and when both thresholds pass,
record the state index (token 2 with `:` stripped) at this line
number. -/
def get_excited_states (line : String) (line_number : ℕ)
    (wavenum_min wavenum_max oscillator_min : ℚ)
    (excited_states : List (ℤ × ℕ)) : Except String (List (ℤ × ℕ)) := do
  let wavenum ← tokFloat (splitWs line) 6
  let osc_tok ← pyIdx (splitWs line) 8
  let oscillator ← pyFloat (strReplace osc_tok "f=" "")
  if wavenum_min ≤ wavenum ∧ wavenum ≤ wavenum_max ∧
      oscillator_min ≤ oscillator then do
    let idx_tok ← pyIdx (splitWs line) 2
    let idx ← pyInt (strReplace idx_tok ":" "")
    return dictInsert excited_states idx line_number
  else
    return excited_states

/-- Worker for `read_logfile`: `enumerate(file, 1)`, strip each line,
hand `'Excited State'` lines to `get_excited_states`. -/
def readLogAux (wmin wmax omin : ℚ) :
    List String → ℕ → List (ℤ × ℕ) → Except String (List (ℤ × ℕ))
  | [], _, d => .ok d
  | l :: ls, n, d =>
    if containsStr (strip l) "Excited State" then do
      let d' ← get_excited_states (strip l) n wmin wmax omin d
      readLogAux wmin wmax omin ls (n + 1) d'
    else
      readLogAux wmin wmax omin ls (n + 1) d

/-- `read_logfile`: the excited-state index to line-number dictionary. -/
def read_logfile (file : List String) (wmin wmax omin : ℚ) :
    Except String (List (ℤ × ℕ)) :=
  readLogAux wmin wmax omin file 1 []

/-- The state index of a stripped line when it parses and passes both
thresholds (the same token pipeline as `get_excited_states`). -/
def parseQual (s : String) (wmin wmax omin : ℚ) : Option ℤ := do
  let w ← ((splitWs s).get? 6).bind parseFloat
  let o8 ← (splitWs s).get? 8
  let o ← parseFloat (strReplace o8 "f=" "")
  if wmin ≤ w ∧ w ≤ wmax ∧ omin ≤ o then
    ((splitWs s).get? 2).bind fun t2 => parseInt (strReplace t2 ":" "")
  else none

/-- A stripped line is a qualifying `'Excited State'` line with index
`i`. -/
def lineQual (l : Option String) (wmin wmax omin : ℚ) (i : ℤ) : Bool :=
  match l with
  | none => false
  | some s =>
    containsStr (strip s) "Excited State" &&
      decide (parseQual (strip s) wmin wmax omin = some i)

/-- Line `ln` (1-based) of the log file is a qualifying
`'Excited State'` line with index `i`. -/
def qualifies (file : List String) (wmin wmax omin : ℚ) (i : ℤ) (ln : ℕ) :
    Bool :=
  1 ≤ ln && lineQual (file.get? (ln - 1)) wmin wmax omin i

theorem dictFind_insert (d : List (ℤ × ℕ)) (k : ℤ) (v : ℕ) (i : ℤ) :
    dictFind (dictInsert d k v) i = if i = k then some v else dictFind d i := by
  induction d with
  | nil =>
    rcases eq_or_ne i k with h | h
    · subst h; simp [dictInsert, dictFind]
    · simp [dictInsert, dictFind, h, Ne.symm h]
  | cons p rest ih =>
    obtain ⟨k', v'⟩ := p
    rcases eq_or_ne k' k with hk | hk
    · subst hk
      rcases eq_or_ne i k' with h | h
      · subst h; simp [dictInsert, dictFind]
      · simp [dictInsert, dictFind, h, Ne.symm h]
    · rcases eq_or_ne i k with h | h
      · subst h
        simp [dictInsert, dictFind, hk, Ne.symm hk, ih]
      · rcases eq_or_ne k' i with h2 | h2 <;>
          simp [dictInsert, dictFind, hk, h, h2, ih]

theorem obindSome {α β : Type} (a : α) (f : α → Option β) :
    ((some a : Option α) >>= f) = f a := rfl

theorem obindSomeExpl {α β : Type} (a : α) (f : α → Option β) :
    (some a).bind f = f a := rfl

theorem pyIdx_ok {α : Type} (l : List α) (i : ℕ) (v : α) :
    pyIdx l i = .ok v ↔ l.get? i = some v := by
  unfold pyIdx
  cases l.get? i <;> simp

theorem pyFloat_ok (s : String) (w : ℚ) :
    pyFloat s = .ok w ↔ parseFloat s = some w := by
  unfold pyFloat
  cases parseFloat s <;> simp

theorem pyInt_ok (s : String) (z : ℤ) :
    pyInt s = .ok z ↔ parseInt s = some z := by
  unfold pyInt
  cases parseInt s <;> simp

theorem tokFloat_ok (ts : List String) (i : ℕ) (w : ℚ) :
    tokFloat ts i = .ok w ↔ (ts.get? i).bind parseFloat = some w := by
  unfold tokFloat pyIdx
  cases ts.get? i with
  | none => simp [bindErr]
  | some t =>
    simp only [bindOk, Option.some_bind]
    cases parseFloat t <;> simp

theorem get_excited_states_spec (line : String) (n : ℕ) (wmin wmax omin : ℚ)
    (d d' : List (ℤ × ℕ))
    (h : get_excited_states line n wmin wmax omin d = .ok d') :
    (∃ idx, parseQual line wmin wmax omin = some idx ∧
      d' = dictInsert d idx n) ∨
    (parseQual line wmin wmax omin = none ∧ d' = d) := by
  unfold get_excited_states at h
  unfold parseQual
  cases hw : tokFloat (splitWs line) 6 with
  | error e => rw [hw, bindErr] at h; exact absurd h (by simp)
  | ok w =>
    rw [hw, bindOk] at h
    rw [(tokFloat_ok _ _ _).mp hw, obindSome]
    cases h8 : pyIdx (splitWs line) 8 with
    | error e => rw [h8, bindErr] at h; exact absurd h (by simp)
    | ok o8 =>
      rw [h8, bindOk] at h
      rw [(pyIdx_ok _ _ _).mp h8, obindSome]
      cases ho : pyFloat (strReplace o8 "f=" "") with
      | error e => rw [ho, bindErr] at h; exact absurd h (by simp)
      | ok o =>
        rw [ho, bindOk] at h
        rw [(pyFloat_ok _ _).mp ho, obindSome]
        by_cases hcond : wmin ≤ w ∧ w ≤ wmax ∧ omin ≤ o
        · rw [if_pos hcond] at h
          rw [if_pos hcond]
          cases h2 : pyIdx (splitWs line) 2 with
          | error e => rw [h2, bindErr] at h; exact absurd h (by simp)
          | ok t2 =>
            rw [h2, bindOk] at h
            rw [(pyIdx_ok _ _ _).mp h2, obindSomeExpl]
            cases hi : pyInt (strReplace t2 ":" "") with
            | error e => rw [hi, bindErr] at h; exact absurd h (by simp)
            | ok idx =>
              rw [hi, bindOk] at h
              rw [(pyInt_ok _ _).mp hi]
              left
              exact ⟨idx, rfl, by simpa [pureOk] using h.symm⟩
        · rw [if_neg hcond] at h
          rw [if_neg hcond]
          right
          exact ⟨rfl, by simpa [pureOk] using h.symm⟩

theorem cons_shift (l : String) (ls : List String) (wmin wmax omin : ℚ)
    (i : ℤ) (n ln : ℕ) (P : Prop)
    (h0 : lineQual (some l) wmin wmax omin i = false) :
    (((∃ k, ln = n + k ∧ lineQual ((l :: ls).get? k) wmin wmax omin i = true) ∧
        ∀ k, ln < n + k → lineQual ((l :: ls).get? k) wmin wmax omin i = false) ∨
      (P ∧ ∀ k, lineQual ((l :: ls).get? k) wmin wmax omin i = false)) ↔
    (((∃ k, ln = (n + 1) + k ∧ lineQual (ls.get? k) wmin wmax omin i = true) ∧
        ∀ k, ln < (n + 1) + k → lineQual (ls.get? k) wmin wmax omin i = false) ∨
      (P ∧ ∀ k, lineQual (ls.get? k) wmin wmax omin i = false)) := by
  have hget : ∀ k : ℕ, (l :: ls).get? (k + 1) = ls.get? k := fun k => rfl
  constructor
  · rintro (⟨⟨k, hk, hq⟩, hno⟩ | ⟨hp, hall⟩)
    · left
      match k, hk, hq with
      | 0, hk, hq => exact absurd hq (by simp [h0])
      | k + 1, hk, hq =>
        refine ⟨⟨k, by omega, by rwa [hget] at hq⟩, fun k' hk' => ?_⟩
        have := hno (k' + 1) (by omega)
        rwa [hget] at this
    · right
      refine ⟨hp, fun k => ?_⟩
      have := hall (k + 1)
      rwa [hget] at this
  · rintro (⟨⟨k, hk, hq⟩, hno⟩ | ⟨hp, hall⟩)
    · left
      refine ⟨⟨k + 1, by omega, by rwa [hget]⟩, fun k' hk' => ?_⟩
      match k' with
      | 0 => exact h0
      | k' + 1 => rw [hget]; exact hno k' (by omega)
    · right
      refine ⟨hp, fun k' => ?_⟩
      match k' with
      | 0 => exact h0
      | k' + 1 => rw [hget]; exact hall k'

theorem cons_hit (l : String) (ls : List String) (wmin wmax omin : ℚ)
    (i : ℤ) (n ln : ℕ) (P : Prop)
    (h0 : lineQual (some l) wmin wmax omin i = true) :
    (((∃ k, ln = n + k ∧ lineQual ((l :: ls).get? k) wmin wmax omin i = true) ∧
        ∀ k, ln < n + k → lineQual ((l :: ls).get? k) wmin wmax omin i = false) ∨
      (P ∧ ∀ k, lineQual ((l :: ls).get? k) wmin wmax omin i = false)) ↔
    (((∃ k, ln = (n + 1) + k ∧ lineQual (ls.get? k) wmin wmax omin i = true) ∧
        ∀ k, ln < (n + 1) + k → lineQual (ls.get? k) wmin wmax omin i = false) ∨
      (ln = n ∧ ∀ k, lineQual (ls.get? k) wmin wmax omin i = false)) := by
  have hget : ∀ k : ℕ, (l :: ls).get? (k + 1) = ls.get? k := fun k => rfl
  constructor
  · rintro (⟨⟨k, hk, hq⟩, hno⟩ | ⟨hp, hall⟩)
    · match k, hk, hq with
      | 0, hk, hq =>
        right
        refine ⟨by omega, fun k' => ?_⟩
        have := hno (k' + 1) (by omega)
        rwa [hget] at this
      | k + 1, hk, hq =>
        left
        refine ⟨⟨k, by omega, by rwa [hget] at hq⟩, fun k' hk' => ?_⟩
        have := hno (k' + 1) (by omega)
        rwa [hget] at this
    · exact absurd (hall 0) (by simp [h0])
  · rintro (⟨⟨k, hk, hq⟩, hno⟩ | ⟨hln, hall⟩)
    · left
      refine ⟨⟨k + 1, by omega, by rwa [hget]⟩, fun k' hk' => ?_⟩
      match k' with
      | 0 => exact absurd hk' (by omega)
      | k' + 1 => rw [hget]; exact hno k' (by omega)
    · left
      refine ⟨⟨0, by omega, h0⟩, fun k' hk' => ?_⟩
      match k' with
      | 0 => exact absurd hk' (by omega)
      | k' + 1 => rw [hget]; exact hall k'

theorem readLogAux_spec (wmin wmax omin : ℚ) :
    ∀ (ls : List String) (n : ℕ) (d m : List (ℤ × ℕ)),
      readLogAux wmin wmax omin ls n d = .ok m →
      ∀ (i : ℤ) (ln : ℕ),
        dictFind m i = some ln ↔
          (((∃ k, ln = n + k ∧ lineQual (ls.get? k) wmin wmax omin i = true) ∧
            ∀ k, ln < n + k → lineQual (ls.get? k) wmin wmax omin i = false) ∨
          (dictFind d i = some ln ∧
            ∀ k, lineQual (ls.get? k) wmin wmax omin i = false)) := by
  intro ls
  induction ls with
  | nil =>
    intro n d m h i ln
    obtain rfl : d = m := by simpa [readLogAux] using h
    simp [lineQual]
  | cons l ls ih =>
    intro n d m h i ln
    unfold readLogAux at h
    by_cases hc : containsStr (strip l) "Excited State" = true
    · rw [if_pos hc] at h
      cases hg : get_excited_states (strip l) n wmin wmax omin d with
      | error e => rw [hg, bindErr] at h; exact absurd h (by simp)
      | ok d1 =>
        rw [hg, bindOk] at h
        have hIH := ih (n + 1) d1 m h i ln
        rcases get_excited_states_spec _ _ _ _ _ _ _ hg with
          ⟨idx, hq, rfl⟩ | ⟨hq, rfl⟩
        · rcases eq_or_ne i idx with rfl | hne
          · have h0 : lineQual (some l) wmin wmax omin i = true := by
              simp [lineQual, hc, hq]
            rw [hIH, dictFind_insert, if_pos rfl,
              cons_hit l ls wmin wmax omin i n ln (dictFind d i = some ln) h0]
            exact or_congr Iff.rfl (and_congr (by simp [eq_comm]) Iff.rfl)
          · have h0 : lineQual (some l) wmin wmax omin i = false := by
              simp [lineQual, hq, Ne.symm hne]
            rw [hIH, dictFind_insert, if_neg hne]
            exact (cons_shift l ls wmin wmax omin i n ln _ h0).symm
        · have h0 : lineQual (some l) wmin wmax omin i = false := by
            simp [lineQual, hq]
          rw [hIH]
          exact (cons_shift l ls wmin wmax omin i n ln _ h0).symm
    · rw [if_neg hc] at h
      have hIH := ih (n + 1) d m h i ln
      have hcf : containsStr (strip l) "Excited State" = false := by
        revert hc
        cases containsStr (strip l) "Excited State" <;> simp
      have h0 : lineQual (some l) wmin wmax omin i = false := by
        simp [lineQual, hcf]
      rw [hIH]
      exact (cons_shift l ls wmin wmax omin i n ln _ h0).symm

/-- **C7 amended.** For every log file on which `read_logfile` returns
(raises no exception), the returned mapping sends an excited-state index
`i` to line number `ln` exactly when line `ln` is a qualifying
`'Excited State'` line for `i` (wavelength within the closed interval,
oscillator strength at least the minimum) and no later line qualifies
for `i`; i.e. each qualifying index is mapped to its **last** qualifying
line. -/
theorem read_logfile_characterization (file : List String)
    (wmin wmax omin : ℚ) (m : List (ℤ × ℕ))
    (h : read_logfile file wmin wmax omin = .ok m) (i : ℤ) (ln : ℕ) :
    dictFind m i = some ln ↔
      (qualifies file wmin wmax omin i ln = true ∧
        ∀ ln', ln < ln' → qualifies file wmin wmax omin i ln' = false) := by
  rw [readLogAux_spec wmin wmax omin file 1 [] m h i ln]
  constructor
  · rintro (⟨⟨k, hk, hq⟩, hno⟩ | ⟨hfind, -⟩)
    · subst hk
      refine ⟨?_, fun ln' hlt => ?_⟩
      · unfold qualifies
        rw [show 1 + k - 1 = k from by omega, hq]
        simp
      · unfold qualifies
        match ln', hlt with
        | ln' + 1, hlt =>
          have := hno ln' (by omega)
          rw [show ln' + 1 - 1 = ln' from by omega, this]
          simp
    · simp [dictFind] at hfind
  · rintro ⟨hq, hno⟩
    left
    unfold qualifies at hq
    rw [Bool.and_eq_true] at hq
    obtain ⟨hln, hlq⟩ := hq
    have hln1 : 1 ≤ ln := by simpa using hln
    refine ⟨⟨ln - 1, by omega, hlq⟩, fun k hk => ?_⟩
    have := hno (1 + k) (by omega)
    unfold qualifies at this
    rw [Bool.and_eq_false_iff] at this
    rcases this with h1 | h2
    · exact absurd h1 (by simp)
    · rwa [show 1 + k - 1 = k from by omega] at h2

/-- A Gaussian09 excitation line: wavelength 100.0 nm, oscillator
strength 0.5, state index 1. -/
def exLine : String :=
  "Excited State   1:      Singlet-A      12.3984 eV  100.0 nm  f=0.5  x"

/-- A log with one qualifying excitation line. -/
def exLog : List String := [exLine]

/-- A log in which the same state index qualifies on two lines. -/
def exLog2 : List String := [exLine, exLine]

theorem parseFloat_q100 : parseFloat "100.0" = some 100 := by
  have h : "100.0".data = ['1', '0', '0', '.', '0'] := rfl
  norm_num +decide [parseFloat, h, takeSign, splitExp, splitFirst, allDigits,
    isDigit, digitsVal, digVal]

theorem exLine_tokens : splitWs exLine =
    ["Excited", "State", "1:", "Singlet-A", "12.3984", "eV", "100.0", "nm",
      "f=0.5", "x"] := by decide

theorem exLine_ges (n : ℕ) (d : List (ℤ × ℕ)) :
    get_excited_states exLine n 50 150 0 d = .ok (dictInsert d 1 n) := by
  have t6 : tokFloat (splitWs exLine) 6 = .ok 100 := by
    unfold tokFloat
    rw [show pyIdx (splitWs exLine) 6 = Except.ok "100.0" from by decide,
      bindOk, parseFloat_q100]
  have o5 : pyFloat (strReplace "f=0.5" "f=" "") = .ok (1 / 2) := by
    rw [show strReplace "f=0.5" "f=" "" = "0.5" from by decide]
    unfold pyFloat
    rw [parseFloat_half]
  unfold get_excited_states
  rw [t6, bindOk, show pyIdx (splitWs exLine) 8 = Except.ok "f=0.5" from by
    decide, bindOk, o5, bindOk, if_pos (by norm_num),
    show pyIdx (splitWs exLine) 2 = Except.ok "1:" from by decide, bindOk,
    show pyInt (strReplace "1:" ":" "") = Except.ok 1 from by decide, bindOk]
  rfl

theorem exLine_parseQual : parseQual exLine 50 150 0 = some 1 := by
  unfold parseQual
  rw [show (splitWs exLine).get? 6 = some "100.0" from by decide,
    obindSomeExpl, parseFloat_q100, obindSome,
    show (splitWs exLine).get? 8 = some "f=0.5" from by decide, obindSome,
    show strReplace "f=0.5" "f=" "" = "0.5" from by decide, parseFloat_half,
    obindSome, if_pos (by norm_num),
    show (splitWs exLine).get? 2 = some "1:" from by decide, obindSomeExpl,
    show strReplace "1:" ":" "" = "1" from by decide]
  decide

theorem exLog2_read : read_logfile exLog2 50 150 0 = .ok [(1, 2)] := by
  have hstrip : strip exLine = exLine := by decide
  simp only [read_logfile, exLog2, readLogAux]
  rw [if_pos (by decide : containsStr (strip exLine) "Excited State" = true),
    hstrip, exLine_ges 1 [], bindOk]
  rw [if_pos (by decide : containsStr exLine "Excited State" = true),
    exLine_ges (1 + 1) (dictInsert [] 1 1), bindOk]
  rfl

theorem exLog_read : read_logfile exLog 50 150 0 = .ok [(1, 1)] := by
  have hstrip : strip exLine = exLine := by decide
  simp only [read_logfile, exLog, readLogAux]
  rw [if_pos (by decide : containsStr (strip exLine) "Excited State" = true),
    hstrip, exLine_ges 1 [], bindOk]
  rfl

theorem exLog2_qual (ln : ℕ) (h : 1 ≤ ln ∧ ln ≤ 2) :
    qualifies exLog2 50 150 0 1 ln = true := by
  unfold qualifies
  have hget : exLog2.get? (ln - 1) = some exLine := by
    match ln, h with
    | 1, _ => rfl
    | 2, _ => rfl
  rw [hget]
  simp only [lineQual]
  rw [show strip exLine = exLine from by decide, exLine_parseQual]
  simp [h.1, show containsStr exLine "Excited State" = true from by decide]

/-- **C7 counterexample.** On a log where state index 1 qualifies on
both line 1 and line 2, `read_logfile` returns a mapping containing
only the second line: the mapping does not contain exactly the
qualifying lines, so the claim as stated fails. -/
theorem read_logfile_counterexample :
    read_logfile exLog2 50 150 0 = .ok [(1, 2)] ∧
    qualifies exLog2 50 150 0 1 1 = true ∧
    qualifies exLog2 50 150 0 1 2 = true ∧
    dictFind [(1, 2)] 1 ≠ some 1 ∧
    ¬ (∀ (i : ℤ) (ln : ℕ), dictFind [(1, 2)] i = some ln ↔
        qualifies exLog2 50 150 0 i ln = true) := by
  refine ⟨exLog2_read, exLog2_qual 1 (by omega), exLog2_qual 2 (by omega),
    by decide, fun hall => ?_⟩
  have := (hall 1 1).mpr (exLog2_qual 1 (by omega))
  simp [dictFind] at this

/-- Witness for **C7 amended**: on a one-line qualifying log the
returned mapping is `{1 ↦ 1}`, and the characterization instantiates. -/
theorem read_logfile_characterization_witness :
    read_logfile exLog 50 150 0 = .ok [(1, 1)] ∧
    (qualifies exLog 50 150 0 1 1 = true ∧
      ∀ ln', 1 < ln' → qualifies exLog 50 150 0 1 ln' = false) := by
  refine ⟨exLog_read, ?_⟩
  exact (read_logfile_characterization exLog 50 150 0 [(1, 1)] exLog_read 1
    1).mp (by decide)

/-- Outcome of a `main` invocation: the messages printed and whether it
returned normally (rather than propagating an exception). -/
structure MainOutcome where
  printed : List String
  returnedNormally : Bool
deriving DecidableEq, Repr

/-- The analyzer's `main`: run `read_logfile` then `write_output`
(abstracted as an arbitrary fallible computation — exactly the two
statements inside the `try`), catch any exception and print
`Error: {e}`. -/
def analyzer_main (file : List String) (wmin wmax omin : ℚ)
    (writeStep : List (ℤ × ℕ) → Except String Unit) : MainOutcome :=
  match (do
      let excited_states ← read_logfile file wmin wmax omin
      writeStep excited_states : Except String Unit) with
  | .ok () => ⟨[], true⟩
  | .error e => ⟨["Error: " ++ e], true⟩

/-- **C8.** Whenever reading the log file or writing the output raises
an exception, the analyzer's `main` catches it, prints an error
message, and returns normally rather than propagating; there is no
further failure handling: when the block succeeds nothing is printed,
and in every case `main` returns normally. -/
theorem analyzer_main_catches (file : List String) (wmin wmax omin : ℚ)
    (writeStep : List (ℤ × ℕ) → Except String Unit) :
    (analyzer_main file wmin wmax omin writeStep).returnedNormally = true ∧
    (∀ e, (do
        let st ← read_logfile file wmin wmax omin
        writeStep st : Except String Unit) = .error e →
      (analyzer_main file wmin wmax omin writeStep).printed =
        ["Error: " ++ e]) ∧
    ((do
        let st ← read_logfile file wmin wmax omin
        writeStep st : Except String Unit) = .ok () →
      (analyzer_main file wmin wmax omin writeStep).printed = []) := by
  cases h : (do
      let st ← read_logfile file wmin wmax omin
      writeStep st : Except String Unit) with
  | ok u =>
    cases u
    refine ⟨by simp [analyzer_main, h], fun e he => ?_,
      fun _ => by simp [analyzer_main, h]⟩
    simp at he
  | error e' =>
    refine ⟨by simp [analyzer_main, h], fun e he => ?_, fun hok => ?_⟩
    · obtain rfl : e' = e := by simpa using he
      simp [analyzer_main, h]
    · simp at hok

/-- Witness for **C8**: a malformed excitation line makes
`read_logfile` raise; `main` prints the message and returns normally. -/
theorem analyzer_main_catches_witness :
    (do
      let st ← read_logfile ["Excited State junk"] 50 150 0
      (fun _ => Except.ok ()) st : Except String Unit) = .error "IndexError" ∧
    (analyzer_main ["Excited State junk"] 50 150 0
      fun _ => .ok ()).printed = ["Error: " ++ "IndexError"] ∧
    (analyzer_main ["Excited State junk"] 50 150 0
      fun _ => .ok ()).returnedNormally = true := by
  have h : (do
      let st ← read_logfile ["Excited State junk"] 50 150 0
      (fun _ => Except.ok ()) st : Except String Unit) =
      .error "IndexError" := by decide
  have hc := analyzer_main_catches ["Excited State junk"] 50 150 0
    fun _ => .ok ()
  exact ⟨h, hc.2.1 "IndexError" h, hc.1⟩

end AnalyzeTDDFT

/-! ### Output files and argument validation across the scripts

Each embedded `*_run` returns the sequence of file operations of one
invocation (one `read`/`write` per Python `open`) together with the
run's result; stages whose numerics are not embedded (the MFA solvers,
`np.linalg.svd`) are abstracted as fallible parameters. -/

/-- One file operation of a run. -/
inductive FileOp
  | read (name : String)
  | write (name : String)
deriving DecidableEq, Repr

/-- The write operations of a trace. -/
def writesOf (ops : List FileOp) : List String :=
  ops.foldr (fun op acc => match op with
    | .write n => n :: acc
    | .read _ => acc) []

namespace TmSolver

/-- The two files `write_output` writes on every call. -/
def write_output_files (j0_file : String) : List String :=
  [strDropRight j0_file 4 ++ "-tm-eqn2.out",
   strDropRight j0_file 4 ++ "-tm-eqn3.out"]

/-- `tmSolver` `main`: extension check, `os.path.isfile` check (both in
`parse_arguments`, before any file is opened), then `get_mfa`/`get_tau`
(abstracted as `solve`) and `write_output`. -/
def tmSolver_run (j0_file : String) (fs : List (String × List String))
    (solve : List String → Except String Unit) :
    List FileOp × Except String Unit :=
  if !(strEndsWith j0_file ".dat") then
    ([], .error "SystemExit: Input file must be in DAT format.")
  else
    match fs.lookup j0_file with
    | none => ([], .error "SystemExit: File not found")
    | some file =>
      match solve file with
      | .error e => ([.read j0_file], .error e)
      | .ok () =>
        ([.read j0_file, .write (strDropRight j0_file 4 ++ "-tm-eqn2.out"),
          .write (strDropRight j0_file 4 ++ "-tm-eqn3.out")], .ok ())

end TmSolver

namespace SvdAnalysis

/-- `svdAnalysis` `main`: extension check before anything is opened,
then `get_data` (read) and `perform_svd` (abstracted `svdStep`, one
write on success). -/
def svdAnalysis_run (csv : String) (fs : List (String × List String))
    (svdStep : List String → Except String Unit) :
    List FileOp × Except String Unit :=
  if !(strEndsWith csv ".csv") then
    ([], .error "ValueError: Error! Input file must be in CSV format.")
  else
    match fs.lookup csv with
    | none => ([], .error "FileNotFoundError")
    | some file =>
      match svdStep file with
      | .error e => ([.read csv], .error e)
      | .ok () =>
        ([.read csv, .write (strDropRight csv 4 ++ "-vt-matrix.csv")], .ok ())

end SvdAnalysis

namespace SplineRaman

/-- The files `cubic_interpolation` writes: one interpolated spectrum
per input file plus the averaged spectrum. -/
def cubic_interpolation_files (spectra : List String) : List String :=
  (spectra.map fun sp => strDropRight sp 4 ++ "-interpolated.dat") ++
    ["average-spectrum.dat"]

end SplineRaman

namespace CubeGridGen

/-- The files `generate_input_files` writes: `inp_cube_{num}.dat` for
`num` in `enumerate(grid, 1)`. -/
def generate_input_files_names (grid : List (ℚ × ℚ × ℚ)) : List String :=
  (List.range grid.length).map fun num => "inp_cube_" ++ toString (num + 1) ++ ".dat"

end CubeGridGen

namespace Fchk2xyz

/-- `fchk2xyz` `main`: extension check in `parse_arguments` (before any
file is opened), then `flag_lines` (one read), `get_charges_coords`
(two reads), and on success the single XYZ write. -/
def fchk2xyz_run (fchkfile : String) (fs : List (String × List String)) :
    List FileOp × Except String Unit :=
  if !(strEndsWith fchkfile ".fchk") then
    ([], .error "ArgumentTypeError: Error! File is not a FCHK file.")
  else
    match fs.lookup fchkfile with
    | none => ([], .error "FileNotFoundError")
    | some file =>
      match fchk_charges file (flag_lines file) with
      | .error e => ([.read fchkfile, .read fchkfile], .error e)
      | .ok _ =>
        match fchk_raw_coords file (flag_lines file) with
        | .error e =>
          ([.read fchkfile, .read fchkfile, .read fchkfile], .error e)
        | .ok _ =>
          match get_charges_coords file (flag_lines file) with
          | .error e =>
            ([.read fchkfile, .read fchkfile, .read fchkfile], .error e)
          | .ok _ =>
            ([.read fchkfile, .read fchkfile, .read fchkfile,
              .write (strReplace fchkfile ".fchk" ".xyz")], .ok ())

end Fchk2xyz

namespace AnalyzeTDDFT

/-- The analyzer's `main` with file operations: no extension validation
at all; the log file is opened whatever its name, all exceptions are
caught (`.ok ()` result), and on success the output file is written. -/
def analyzeTDDFT_run (logfile : String) (fs : List (String × List String))
    (wmin wmax omin : ℚ) (writeStep : List (ℤ × ℕ) → Except String Unit) :
    List FileOp × Except String Unit :=
  match fs.lookup logfile with
  | none => ([], .ok ())
  | some file =>
    match read_logfile file wmin wmax omin with
    | .error _ => ([.read logfile], .ok ())
    | .ok st =>
      match writeStep st with
      | _ => ([.read logfile,
          .write (strDropRight logfile 4 ++ "_excitations.dat")], .ok ())

end AnalyzeTDDFT

/-- An FCHK file with zero atoms (all blocks empty), on which the whole
`fchk2xyz` pipeline succeeds. -/
def emptyFchk : List String :=
  ["Nuclear charges", "Current cartesian coordinates", "Force Field"]

/-- **C4 counterexample.** Not every script writes exactly one output
file per invocation: `tmSolver`'s `write_output` writes two files on
every call (and a successful run's trace holds both), `splineRamanSpec`
writes one file per spectrum plus the average, and `cubeGridGen` writes
one input file per cube origin. -/
theorem one_output_file_counterexample :
    TmSolver.write_output_files "j0.dat" =
      ["j0-tm-eqn2.out", "j0-tm-eqn3.out"] ∧
    (TmSolver.write_output_files "j0.dat").length ≠ 1 ∧
    TmSolver.tmSolver_run "j0.dat" [("j0.dat", ["data"])] (fun _ => .ok ()) =
      ([.read "j0.dat", .write "j0-tm-eqn2.out", .write "j0-tm-eqn3.out"],
        .ok ()) ∧
    (SplineRaman.cubic_interpolation_files ["s1.dat", "s2.dat"]).length = 3 ∧
    (CubeGridGen.generate_input_files_names
      (List.replicate 8 ((0 : ℚ), (0 : ℚ), (0 : ℚ)))).length = 8 := by
  refine ⟨by decide, by decide, by decide, by decide, ?_⟩
  simp [CubeGridGen.generate_input_files_names]

/-- **C4 amended.** Not every script writes exactly one output file:
`fchk2xyz` writes exactly one (the XYZ file) on a successful run, while
`tmSolver` always writes two, `cubeGridGen` writes one input file per
cube origin, and `splineRamanSpec` writes one interpolated file per
input spectrum plus the averaged spectrum. -/
theorem output_file_counts (j0_file : String) (grid : List (ℚ × ℚ × ℚ))
    (spectra : List String) (fchkfile : String)
    (fs : List (String × List String)) (tr : List FileOp)
    (hrun : Fchk2xyz.fchk2xyz_run fchkfile fs = (tr, .ok ())) :
    (TmSolver.write_output_files j0_file).length = 2 ∧
    (CubeGridGen.generate_input_files_names grid).length = grid.length ∧
    (SplineRaman.cubic_interpolation_files spectra).length =
      spectra.length + 1 ∧
    writesOf tr = [strReplace fchkfile ".fchk" ".xyz"] := by
  refine ⟨rfl, by simp [CubeGridGen.generate_input_files_names],
    by simp [SplineRaman.cubic_interpolation_files], ?_⟩
  unfold Fchk2xyz.fchk2xyz_run at hrun
  split at hrun
  · simp at hrun
  · split at hrun
    · simp at hrun
    · split at hrun
      · simp at hrun
      · split at hrun
        · simp at hrun
        · split at hrun
          · simp at hrun
          · have htr : tr = [FileOp.read fchkfile, FileOp.read fchkfile,
                FileOp.read fchkfile,
                FileOp.write (strReplace fchkfile ".fchk" ".xyz")] := by
              simpa [Prod.ext_iff] using hrun.symm
            subst htr
            simp [writesOf]

/-- Witness for **C4 amended**: on the zero-atom FCHK file the run
succeeds with three reads and exactly one write. -/
theorem output_file_counts_witness :
    Fchk2xyz.fchk2xyz_run "sample.fchk" [("sample.fchk", emptyFchk)] =
      ([.read "sample.fchk", .read "sample.fchk", .read "sample.fchk",
        .write "sample.xyz"], .ok ()) ∧
    (TmSolver.write_output_files "j0.dat").length = 2 ∧
    writesOf [.read "sample.fchk", .read "sample.fchk", .read "sample.fchk",
      .write "sample.xyz"] = ["sample.xyz"] := by
  have hrun : Fchk2xyz.fchk2xyz_run "sample.fchk"
      [("sample.fchk", emptyFchk)] =
      ([.read "sample.fchk", .read "sample.fchk", .read "sample.fchk",
        .write "sample.xyz"], .ok ()) := by decide
  have h := output_file_counts "j0.dat" [] [] "sample.fchk"
    [("sample.fchk", emptyFchk)] _ hrun
  refine ⟨hrun, h.1, ?_⟩
  rw [h.2.2.2]
  decide

/-- **C5 counterexample.** `analyzeTDDFT` expects a Gaussian09 LOG file
but performs no extension validation: invoked on a non-`.log` filename
it opens and reads the input file (and proceeds to write output) rather
than failing during argument validation. -/
theorem extension_validation_counterexample :
    strEndsWith "foo.txt" ".log" = false ∧
    AnalyzeTDDFT.analyzeTDDFT_run "foo.txt" [("foo.txt", ["hello"])] 50 150 0
        (fun _ => .ok ()) =
      ([.read "foo.txt", .write "foo_excitations.dat"], .ok ()) ∧
    FileOp.read "foo.txt" ∈
      (AnalyzeTDDFT.analyzeTDDFT_run "foo.txt" [("foo.txt", ["hello"])] 50 150 0
        fun _ => .ok ()).1 :=
  ⟨by decide, by decide, by decide⟩

/-- **C5 amended.** The scripts that validate extensions — `fchk2xyz`
(`.fchk`), `tmSolver` (`.dat`), `svdAnalysis` (`.csv`) — fail during
argument validation on a mismatched filename, before reading the input
file or writing any output file (their operation trace is empty);
`analyzeTDDFT` performs no extension validation and reads its input
regardless of the filename. -/
theorem extension_validation (fname : String)
    (fs : List (String × List String))
    (solve svdStep : List String → Except String Unit) :
    (strEndsWith fname ".fchk" = false →
      Fchk2xyz.fchk2xyz_run fname fs =
        ([], .error "ArgumentTypeError: Error! File is not a FCHK file.")) ∧
    (strEndsWith fname ".dat" = false →
      TmSolver.tmSolver_run fname fs solve =
        ([], .error "SystemExit: Input file must be in DAT format.")) ∧
    (strEndsWith fname ".csv" = false →
      SvdAnalysis.svdAnalysis_run fname fs svdStep =
        ([], .error "ValueError: Error! Input file must be in CSV format.")) := by
  refine ⟨fun h => ?_, fun h => ?_, fun h => ?_⟩ <;>
    simp [Fchk2xyz.fchk2xyz_run, TmSolver.tmSolver_run,
      SvdAnalysis.svdAnalysis_run, h]

namespace TmSolver

/-- A complex entry of a `np.roots` result array. -/
structure Cx (K : Type) where
  re : K
  im : K
deriving DecidableEq

/-- The cubic coefficients `a, b, c, d` computed by `taum_eqn2`. -/
def taum_coeffs {K : Type} [LinearOrderedField K] (j0 s2 tau_e : K) :
    K × K × K × K :=
  (-0.4 * s2,
   j0 - 1.2 * s2 * tau_e - 0.4 * tau_e,
   2.0 * j0 * tau_e - 0.4 * tau_e ^ 2,
   j0 * tau_e ^ 2)

/-- Value of the cubic `a·t³ + b·t² + c·t + d`. -/
def cubicEval {K : Type} [LinearOrderedField K] (co : K × K × K × K) (t : K) :
    K :=
  co.1 * t ^ 3 + co.2.1 * t ^ 2 + co.2.2.1 * t + co.2.2.2

/-- `np.isreal(z) & (z > 0)` on a numpy complex entry: `isreal` is
`im = 0`, and numpy's complex comparison orders by real then imaginary
part, so together the filter keeps `im = 0 ∧ re > 0`. -/
def keepRoot {K : Type} [LinearOrderedField K] (z : Cx K) : Bool :=
  z.im = 0 && 0 < z.re

/-- `taum_eqn2` with `np.roots` as an oracle parameter: build the
coefficients, filter the returned roots to the real positive ones,
return the first (`none` models `np.nan`). -/
def taum_eqn2 {K : Type} [LinearOrderedField K]
    (npRoots : K × K × K × K → List (Cx K)) (j0 s2 tau_e : K) : Option K :=
  match (npRoots (taum_coeffs j0 s2 tau_e)).filter keepRoot with
  | [] => none
  | z :: _ => some z.re

/-- The `np.roots` contract, idealised to exact arithmetic: real
entries are roots of the polynomial; when the coefficients are not all
zero, every real root appears among the entries; `np.roots` of an
all-zero coefficient list is the empty array. -/
def npRootsSpec {K : Type} [LinearOrderedField K] (co : K × K × K × K)
    (rs : List (Cx K)) : Prop :=
  (∀ z ∈ rs, z.im = 0 → cubicEval co z.re = 0) ∧
  (¬(co.1 = 0 ∧ co.2.1 = 0 ∧ co.2.2.1 = 0 ∧ co.2.2.2 = 0) →
    ∀ t : K, cubicEval co t = 0 → ∃ z ∈ rs, z.im = 0 ∧ z.re = t) ∧
  ((co.1 = 0 ∧ co.2.1 = 0 ∧ co.2.2.1 = 0 ∧ co.2.2.2 = 0) → rs = [])

/-- **C6 counterexample.** At `(j0, s2, tau_e) = (0, 0, 0)` all four
coefficients vanish, `np.roots` returns the empty array (satisfying its
contract) and `taum_eqn2` returns NaN — yet the cubic, being
identically zero, has real strictly positive roots (e.g. `t = 1`), so
"returns NaN exactly when the cubic has no real positive root" fails. -/
theorem taum_eqn2_counterexample :
    taum_coeffs (0 : ℚ) 0 0 = (0, 0, 0, 0) ∧
    npRootsSpec ((0 : ℚ), 0, 0, 0) [] ∧
    taum_eqn2 (fun _ => []) (0 : ℚ) 0 0 = none ∧
    (0 : ℚ) < 1 ∧ cubicEval ((0 : ℚ), 0, 0, 0) 1 = 0 := by
  refine ⟨by norm_num [taum_coeffs], ⟨by simp, fun hn => ?_, fun _ => rfl⟩,
    rfl, by norm_num, by norm_num [cubicEval]⟩
  exact absurd ⟨rfl, rfl, rfl, rfl⟩ hn

/-- **C6 amended.** For every input `(j0, s2, tau_e)` and any `np.roots`
oracle meeting its contract on the computed coefficients: whenever
`taum_eqn2` does not return NaN the returned value is a real, strictly
positive root of the cubic `a·t³ + b·t² + c·t + d` with
`a = -0.4·s2`, `b = j0 - 1.2·s2·tau_e - 0.4·tau_e`,
`c = 2·j0·tau_e - 0.4·tau_e²`, `d = j0·tau_e²`; and it returns NaN
exactly when the coefficient list is identically zero or the cubic has
no real strictly positive root. -/
theorem taum_eqn2_correct {K : Type} [LinearOrderedField K]
    (npRoots : K × K × K × K → List (Cx K)) (j0 s2 tau_e : K)
    (hspec : npRootsSpec (taum_coeffs j0 s2 tau_e)
      (npRoots (taum_coeffs j0 s2 tau_e))) :
    (∀ t, taum_eqn2 npRoots j0 s2 tau_e = some t →
      0 < t ∧ cubicEval (taum_coeffs j0 s2 tau_e) t = 0) ∧
    (taum_eqn2 npRoots j0 s2 tau_e = none ↔
      (((taum_coeffs j0 s2 tau_e).1 = 0 ∧ (taum_coeffs j0 s2 tau_e).2.1 = 0 ∧
        (taum_coeffs j0 s2 tau_e).2.2.1 = 0 ∧
        (taum_coeffs j0 s2 tau_e).2.2.2 = 0) ∨
      ¬∃ t, 0 < t ∧ cubicEval (taum_coeffs j0 s2 tau_e) t = 0)) := by
  obtain ⟨hsound, hcomp, hzero⟩ := hspec
  have hkeep_iff : ∀ z : Cx K, keepRoot z = true ↔ z.im = 0 ∧ 0 < z.re := by
    intro z
    simp [keepRoot, Bool.and_eq_true, decide_eq_true_iff]
  constructor
  · intro t ht
    unfold taum_eqn2 at ht
    cases hf : (npRoots (taum_coeffs j0 s2 tau_e)).filter keepRoot with
    | nil => rw [hf] at ht; simp at ht
    | cons z rest =>
      rw [hf] at ht
      obtain rfl : z.re = t := by simpa using ht
      have hz : z ∈ (npRoots (taum_coeffs j0 s2 tau_e)).filter keepRoot := by
        rw [hf]; exact List.mem_cons_self z rest
      obtain ⟨hmem, hk⟩ := List.mem_filter.mp hz
      obtain ⟨him, hpos⟩ := (hkeep_iff z).mp hk
      exact ⟨hpos, hsound z hmem him⟩
  · constructor
    · intro hnone
      unfold taum_eqn2 at hnone
      cases hf : (npRoots (taum_coeffs j0 s2 tau_e)).filter keepRoot with
      | cons z rest => rw [hf] at hnone; simp at hnone
      | nil =>
        by_cases hz : (taum_coeffs j0 s2 tau_e).1 = 0 ∧
            (taum_coeffs j0 s2 tau_e).2.1 = 0 ∧
            (taum_coeffs j0 s2 tau_e).2.2.1 = 0 ∧
            (taum_coeffs j0 s2 tau_e).2.2.2 = 0
        · exact Or.inl hz
        · right
          rintro ⟨t, htpos, htroot⟩
          obtain ⟨z, hzmem, hzim, hzre⟩ := hcomp hz t htroot
          have hmemf : z ∈ (npRoots (taum_coeffs j0 s2 tau_e)).filter
              keepRoot :=
            List.mem_filter.mpr ⟨hzmem, (hkeep_iff z).mpr ⟨hzim, by
              rw [hzre]; exact htpos⟩⟩
          rw [hf] at hmemf
          simp at hmemf
    · intro h
      unfold taum_eqn2
      rcases h with hz | hnoroot
      · rw [hzero hz]
        rfl
      · cases hf : (npRoots (taum_coeffs j0 s2 tau_e)).filter keepRoot with
        | nil => rfl
        | cons z rest =>
          exfalso
          have hzf : z ∈ (npRoots (taum_coeffs j0 s2 tau_e)).filter
              keepRoot := by
            rw [hf]; exact List.mem_cons_self z rest
          obtain ⟨hmem, hk⟩ := List.mem_filter.mp hzf
          obtain ⟨him, hpos⟩ := (hkeep_iff z).mp hk
          exact hnoroot ⟨z.re, hpos, hsound z hmem him⟩

/-- Witness for **C6 amended**: `(j0, s2, tau_e) = (0.4, 1, 0)` gives
the cubic `-0.4·t³ + 0.4·t²` with roots `0, 0, 1`; the honest oracle
satisfies the contract and `taum_eqn2` returns the positive root `1`. -/
theorem taum_eqn2_correct_witness :
    npRootsSpec (taum_coeffs (0.4 : ℚ) 1 0) [⟨0, 0⟩, ⟨0, 0⟩, ⟨1, 0⟩] ∧
    taum_eqn2 (fun _ => [⟨0, 0⟩, ⟨0, 0⟩, ⟨1, 0⟩]) (0.4 : ℚ) 1 0 = some 1 ∧
    (0 : ℚ) < 1 ∧ cubicEval (taum_coeffs (0.4 : ℚ) 1 0) 1 = 0 := by
  have hco : taum_coeffs (0.4 : ℚ) 1 0 = (-0.4, 0.4, 0, 0) := by
    norm_num [taum_coeffs]
  have hspec : npRootsSpec (taum_coeffs (0.4 : ℚ) 1 0)
      [⟨0, 0⟩, ⟨0, 0⟩, ⟨1, 0⟩] := by
    rw [hco]
    refine ⟨?_, ?_, ?_⟩
    · intro z hz him
      simp only [List.mem_cons, List.not_mem_nil, or_false] at hz
      rcases hz with rfl | rfl | rfl <;> norm_num [cubicEval]
    · intro hn t ht
      simp only [cubicEval] at ht
      have h2 : t ^ 2 * (t - 1) = 0 := by linear_combination (-5 / 2 : ℚ) * ht
      rcases mul_eq_zero.mp h2 with h | h
      · have ht0 : t = 0 := sq_eq_zero_iff.mp h
        exact ⟨⟨0, 0⟩, by simp, rfl, ht0.symm⟩
      · have ht1 : t = 1 := by linarith
        exact ⟨⟨1, 0⟩, by simp, rfl, ht1.symm⟩
    · intro h
      exact absurd h.1 (by norm_num)
  have hmain := taum_eqn2_correct (fun _ => [⟨0, 0⟩, ⟨0, 0⟩, ⟨1, 0⟩])
    (0.4 : ℚ) 1 0 hspec
  have hres : taum_eqn2 (fun _ => [⟨0, 0⟩, ⟨0, 0⟩, ⟨1, 0⟩])
      (0.4 : ℚ) 1 0 = some 1 := by
    unfold taum_eqn2
    rfl
  exact ⟨hspec, hres, by norm_num, (hmain.1 1 hres).2⟩

end TmSolver

/-- Witness for **C5 amended**: the filename `x.txt` matches none of
the three extensions and each run fails with an empty trace. -/
theorem extension_validation_witness :
    strEndsWith "x.txt" ".fchk" = false ∧
    Fchk2xyz.fchk2xyz_run "x.txt" [] =
      ([], .error "ArgumentTypeError: Error! File is not a FCHK file.") ∧
    TmSolver.tmSolver_run "x.txt" [] (fun _ => .ok ()) =
      ([], .error "SystemExit: Input file must be in DAT format.") ∧
    SvdAnalysis.svdAnalysis_run "x.txt" [] (fun _ => .ok ()) =
      ([], .error "ValueError: Error! Input file must be in CSV format.") := by
  have h := extension_validation "x.txt" [] (fun _ => .ok ()) fun _ => .ok ()
  exact ⟨by decide, h.1 (by decide), h.2.1 (by decide), h.2.2 (by decide)⟩

end GradSchool
